import Mathlib

/-!
# Verification of the lernmanager progression/quiz data layer

Shallow embedding of the core data-layer functions of the `lernmanager`
repository (`models.py`, `game_models.py`, `llm_grading.py`, and the
post-toggle completion step of `app.py`).  The relational store is modelled
as lists of row records; each SQL statement of a modelled function is
translated into the corresponding list operation.  Timestamps are modelled
as rational numbers of hours; `datetime.now()` is passed in explicitly.

Python float computations (`int(max_punkte * 0.7)` in `save_quiz_attempt`)
are embedded exactly: IEEE-754 double rounding of the product is emulated
with exact natural-number arithmetic (round-to-nearest, ties-to-even on a
53-bit significand).
-/

namespace Lernmanager

/-- Row of `student_task` (models.py: CREATE TABLE student_task). -/
structure StudentTaskRow where
  id : Nat
  student_id : Nat
  klasse_id : Nat
  task_id : Nat
  rolle : String
  abgeschlossen : Nat
  manuell_abgeschlossen : Nat
  deriving Repr, DecidableEq

/-- Row of `task` (only the columns read by the modelled functions).
`quizJson` embeds the `quiz_json` column as the parsed question count:
`none` is a NULL/empty (falsy) column, `some n` a truthy JSON document whose
`questions` list has length `n` — the only two facts about the column that
`check_task_completion` uses. -/
structure TaskRow where
  id : Nat
  quizJson : Option Nat
  subtask_quiz_required : Nat
  deriving Repr, DecidableEq

/-- Row of `subtask`.  `quizJson` embeds the raw `quiz_json` TEXT column
(`none` = NULL); Python truthiness of the column is `isTruthy`. -/
structure SubtaskRow where
  id : Nat
  task_id : Nat
  beschreibung : String
  reihenfolge : Nat
  quizJson : Option String
  deriving Repr, DecidableEq

/-- Python truthiness of a nullable TEXT column: non-NULL and non-empty. -/
def isTruthy : Option String → Bool
  | none => false
  | some s => !(s == "")

/-- Row of `student_subtask` (UNIQUE(student_task_id, subtask_id)). -/
structure StudentSubtaskRow where
  student_task_id : Nat
  subtask_id : Nat
  erledigt : Nat
  deriving Repr, DecidableEq

/-- Row of `quiz_attempt`.  `subtask_id = none` is a topic-level attempt. -/
structure QuizAttemptRow where
  id : Nat
  student_task_id : Nat
  subtask_id : Option Nat
  punkte : Nat
  max_punkte : Nat
  bestanden : Nat
  antworten_json : String
  deriving Repr, DecidableEq

/-- Row of `subtask_visibility`: scoped to a class or to a student
(the unused scope column is NULL). -/
structure VisRow where
  subtask_id : Nat
  klasse_id : Option Nat
  student_id : Option Nat
  enabled : Nat
  set_by_admin_id : Option Nat
  deriving Repr, DecidableEq

/-- Row of `material_subtask`. -/
structure MaterialSubtaskRow where
  material_id : Nat
  subtask_id : Nat
  deriving Repr, DecidableEq

/-- Row of `game_task_progress` (columns read by `check_task_completion`). -/
structure GameProgressRow where
  student_task_id : Nat
  answered_correctly : Nat
  deriving Repr, DecidableEq

/-- The relational store, restricted to the tables the modelled functions
read or write. -/
structure DB where
  student_tasks : List StudentTaskRow
  tasks : List TaskRow
  subtasks : List SubtaskRow
  student_subtasks : List StudentSubtaskRow
  quiz_attempts : List QuizAttemptRow
  visibility : List VisRow
  material_subtask : List MaterialSubtaskRow
  game_progress : List GameProgressRow
  deriving Repr, DecidableEq

/-! ## models.py: assign_task_to_student -/

/-- Predicate of the step-1 UPDATE of `assign_task_to_student`:
active primary row for this (student, class). -/
def isActivePrimary (student_id klasse_id : Nat) (r : StudentTaskRow) : Bool :=
  r.student_id == student_id && r.klasse_id == klasse_id &&
    r.abgeschlossen == 0 && r.rolle == "primary"

/-- Fresh AUTOINCREMENT id for `student_task`. -/
def nextStudentTaskId (rows : List StudentTaskRow) : Nat :=
  (rows.map (·.id)).foldr max 0 + 1

/-- models.py `assign_task_to_student(student_id, klasse_id, task_id, rolle)`,
acting on the `student_task` table.
Step 1: if the role is `'primary'`, close every active primary row of the
(student, class) pair.  Step 2: if an active row with the same
(student, class, task, role) exists, return.  Step 3: insert a new row with
`abgeschlossen = 0, manuell_abgeschlossen = 0`. -/
def assign_task_to_student (rows : List StudentTaskRow)
    (student_id klasse_id task_id : Nat) (rolle : String) :
    List StudentTaskRow :=
  let rows1 :=
    if rolle == "primary" then
      rows.map (fun r =>
        if isActivePrimary student_id klasse_id r then
          { r with abgeschlossen := 1 }
        else r)
    else rows
  let dup := rows1.countP (fun r =>
    r.student_id == student_id && r.klasse_id == klasse_id &&
      r.task_id == task_id && r.rolle == rolle && r.abgeschlossen == 0)
  if dup ≥ 1 then rows1
  else rows1 ++ [⟨nextStudentTaskId rows1, student_id, klasse_id, task_id, rolle, 0, 0⟩]

/-- The "at most one active primary per (student, class)" storage invariant
(`idx_one_active_primary` in migrate_005_fix_duplicate_tasks.py). -/
def ActivePrimaryInvariant (rows : List StudentTaskRow) : Prop :=
  ∀ student_id klasse_id : Nat,
    rows.countP (isActivePrimary student_id klasse_id) ≤ 1

/-! ## models.py: subtask visibility -/

/-- The `s.id IN (...)` membership test of `get_visible_subtasks_for_student`:
an enabled student-specific row exists, or an enabled class-wide row exists
and no student-specific row (of any enabled value) exists for the subtask. -/
def visibleByRules (vis : List VisRow) (student_id klasse_id sub_id : Nat) : Bool :=
  (vis.any fun v =>
      v.student_id == some student_id && v.enabled == 1 && v.subtask_id == sub_id) ||
  ((vis.any fun v =>
      v.klasse_id == some klasse_id && v.enabled == 1 && v.subtask_id == sub_id) &&
   !(vis.any fun v => v.subtask_id == sub_id && v.student_id == some student_id))

/-- models.py `get_visible_subtasks_for_student(student_id, klasse_id, task_id)`.
The `ORDER BY s.reihenfolge` of the source only permutes the result and is
omitted; every claim about this function is position-independent. -/
def get_visible_subtasks_for_student (db : DB)
    (student_id klasse_id task_id : Nat) : List SubtaskRow :=
  db.subtasks.filter (fun s =>
    s.task_id == task_id && visibleByRules db.visibility student_id klasse_id s.id)

/-! ## models.py: subtask toggling and completion -/

/-- `INSERT OR REPLACE INTO student_subtask` (UNIQUE(student_task_id, subtask_id)). -/
def upsertStudentSubtask (rows : List StudentSubtaskRow)
    (st_id sub_id e : Nat) : List StudentSubtaskRow :=
  if rows.any (fun r => r.student_task_id == st_id && r.subtask_id == sub_id) then
    rows.map (fun r =>
      if r.student_task_id == st_id && r.subtask_id == sub_id then
        ⟨st_id, sub_id, e⟩
      else r)
  else rows ++ [⟨st_id, sub_id, e⟩]

/-- `COALESCE(ss.erledigt, 0)` for a (student_task, subtask) pair. -/
def getErledigt (rows : List StudentSubtaskRow) (st_id sub_id : Nat) : Nat :=
  match rows.find? (fun r => r.student_task_id == st_id && r.subtask_id == sub_id) with
  | some r => r.erledigt
  | none => 0

/-- `SELECT 1 FROM quiz_attempt WHERE student_task_id = ? AND subtask_id = ?
AND bestanden = 1` (`sub_id = none` is the `subtask_id IS NULL` variant). -/
def hasPassedAttempt (attempts : List QuizAttemptRow)
    (st_id : Nat) (sub_id : Option Nat) : Bool :=
  attempts.any (fun a =>
    a.student_task_id == st_id && a.subtask_id == sub_id && a.bestanden == 1)

/-- Result record of `toggle_student_subtask`. -/
structure ToggleResult where
  quiz_pending : Bool
  subtask_id : Nat
  deriving Repr, DecidableEq

/-- `task_row and task_row['subtask_quiz_required']` for the task of a
student_task: truthiness of the flag, false when either row is missing. -/
def subtaskQuizRequired (db : DB) (task_id : Nat) : Bool :=
  match db.tasks.find? (fun t => t.id == task_id) with
  | some t => t.subtask_quiz_required != 0
  | none => false

/-- models.py `check_task_completion(student_task_id)`: complete iff every
visible subtask is ticked, every required subtask quiz among them is passed,
and the topic-level quiz (when present) is passed directly or covered by
enough correct game-mode answers. -/
def check_task_completion (db : DB) (student_task_id : Nat) : Bool :=
  match db.student_tasks.find? (fun r => r.id == student_task_id) with
  | none => false
  | some st =>
    let task_info := db.tasks.find? (fun t => t.id == st.task_id)
    let visible := get_visible_subtasks_for_student db st.student_id st.klasse_id st.task_id
    let quiz_required := subtaskQuizRequired db st.task_id
    let subtasksOk := visible.all (fun sub =>
      getErledigt db.student_subtasks student_task_id sub.id == 1 &&
      (!(quiz_required && isTruthy sub.quizJson) ||
        hasPassedAttempt db.quiz_attempts student_task_id (some sub.id)))
    if !subtasksOk then false
    else
      match task_info with
      | none => true
      | some t =>
        match t.quizJson with
        | none => true
        | some total_questions =>
          if hasPassedAttempt db.quiz_attempts student_task_id none then true
          else if total_questions > 0 then
            decide (total_questions ≤ db.game_progress.countP (fun g =>
              g.student_task_id == student_task_id && g.answered_correctly == 1))
          else true

/-- models.py `mark_task_complete(student_task_id, manual)`. -/
def mark_task_complete (db : DB) (student_task_id : Nat) (manual : Bool) : DB :=
  { db with student_tasks := db.student_tasks.map (fun r =>
      if r.id == student_task_id then
        if manual then { r with abgeschlossen := 1, manuell_abgeschlossen := 1 }
        else { r with abgeschlossen := 1 }
      else r) }

/-- models.py `toggle_student_subtask(student_task_id, subtask_id, erledigt)`.
The trailing `_advance_to_next_subtask_internal` call of the source only
invokes `check_task_completion`, which performs no writes, so the state part
of the embedding ends with the upsert. -/
def toggle_student_subtask (db : DB) (student_task_id subtask_id : Nat)
    (erledigt : Bool) : DB × ToggleResult :=
  let ss := upsertStudentSubtask db.student_subtasks student_task_id subtask_id
      (if erledigt then 1 else 0)
  let db' := { db with student_subtasks := ss }
  if erledigt then
    let subtask_row := db.subtasks.find? (fun s => s.id == subtask_id)
    let st_row := db.student_tasks.find? (fun r => r.id == student_task_id)
    let has_subtask_quiz :=
      match subtask_row with
      | some s => isTruthy s.quizJson
      | none => false
    let quiz_required :=
      match st_row with
      | some st => subtaskQuizRequired db st.task_id
      | none => false
    if has_subtask_quiz && quiz_required &&
        !(hasPassedAttempt db.quiz_attempts student_task_id (some subtask_id)) then
      (db', ⟨true, subtask_id⟩)
    else
      (db', ⟨false, subtask_id⟩)
  else
    (db', ⟨false, subtask_id⟩)

/-- The post-toggle auto-completion step of the `student_toggle_subtask`
route (app.py lines 1553–1574): toggle, return early if a subtask quiz is
pending, otherwise mark the task complete (manual=False) when
`check_task_completion` holds. -/
def toggleAndComplete (db : DB) (student_task_id subtask_id : Nat)
    (erledigt : Bool) : DB :=
  let (db', res) := toggle_student_subtask db student_task_id subtask_id erledigt
  if res.quiz_pending then db'
  else if check_task_completion db' student_task_id then
    mark_task_complete db' student_task_id false
  else db'

/-! ## models.py: save_quiz_attempt

`min_punkte = max(1, int(max_punkte * 0.7)) if max_punkte > 0 else 1` runs in
IEEE-754 double arithmetic.  The double nearest to 0.7 is exactly
`6305039478318694 / 2^53` (the rounding of `7/10`, whose scaled value
`7·2^53/10` has fractional part 0.4).  For a Nat `m ≤ 2^53` the conversion
to double is exact, so `m * 0.7` is the correctly-rounded (round-to-nearest,
ties-to-even) double of the exact rational `m · 6305039478318694 / 2^53`,
and `int(...)` truncates it.  The emulation below reproduces this exactly. -/

/-- Round `n / 2^k` to the nearest integer, ties to even. -/
def rne (n k : Nat) : Nat :=
  let q := n / 2 ^ k
  let r := n % 2 ^ k
  if 2 * r > 2 ^ k ∨ (2 * r = 2 ^ k ∧ q % 2 = 1) then q + 1 else q

/-- Number of significant binary digits, by fuel recursion (exact for
`n < 2^128`, far beyond every product that occurs here). -/
def bitsFuel : Nat → Nat → Nat
  | 0, _ => 0
  | f + 1, n => if n = 0 then 0 else bitsFuel f (n / 2) + 1

/-- Bit length of a natural number below `2^128`. -/
def bitLen (n : Nat) : Nat := bitsFuel 128 n

/-- Python `int(m * 0.7)` for a natural `m`: round the exact product
`m · double(0.7)` to a 53-bit significand, then truncate. -/
def pyIntMul07 (m : Nat) : Nat :=
  if m = 0 then 0
  else
    let n := m * 6305039478318694
    let bits := bitLen n
    let k := bits - 53
    rne n k * 2 ^ k / 2 ^ 53

/-- The pass threshold of `save_quiz_attempt`:
`max(1, int(max_punkte * 0.7)) if max_punkte > 0 else 1`. -/
def minPunkte (max_punkte : Nat) : Nat :=
  if max_punkte > 0 then max 1 (pyIntMul07 max_punkte) else 1

/-- The pass flag of `save_quiz_attempt`:
`punkte >= min_punkte if max_punkte > 0 else False`. -/
def quizBestanden (punkte max_punkte : Nat) : Bool :=
  if max_punkte > 0 then decide (punkte ≥ minPunkte max_punkte) else false

/-- Fresh AUTOINCREMENT id for `quiz_attempt`. -/
def nextAttemptId (rows : List QuizAttemptRow) : Nat :=
  (rows.map (·.id)).foldr max 0 + 1

/-- models.py `save_quiz_attempt(student_task_id, punkte, max_punkte,
antworten_json, subtask_id)`: computes the pass flag, appends the attempt
row, returns `(attempt_id, bestanden)`. -/
def save_quiz_attempt (db : DB) (student_task_id punkte max_punkte : Nat)
    (antworten_json : String) (subtask_id : Option Nat) :
    DB × Nat × Bool :=
  let bestanden := quizBestanden punkte max_punkte
  let rid := nextAttemptId db.quiz_attempts
  let row : QuizAttemptRow :=
    ⟨rid, student_task_id, subtask_id, punkte, max_punkte,
      if bestanden then 1 else 0, antworten_json⟩
  ({ db with quiz_attempts := db.quiz_attempts ++ [row] }, rid, bestanden)

/-! ## models.py: update_subtasks (replace-all rewrite) -/

/-- Python-dict insertion (assignment `d[k] = v`): overwrite the value when
the key is present, append otherwise. -/
def dictInsert {K V : Type} [BEq K] (d : List (K × V)) (k : K) (v : V) :
    List (K × V) :=
  if d.any (fun kv => kv.1 == k) then
    d.map (fun kv => if kv.1 == k then (k, v) else kv)
  else d ++ [(k, v)]

/-- Key of `visibility_by_position`: (klasse_id, student_id, reihenfolge). -/
abbrev VisKey := Option Nat × Option Nat × Nat

/-- Fresh AUTOINCREMENT base id for the `subtask` table. -/
def nextSubtaskId (rows : List SubtaskRow) : Nat :=
  (rows.map (·.id)).foldr max 0 + 1

/-- Python `str.strip()`: remove leading and trailing whitespace. -/
def pyStrip (s : String) : String :=
  ⟨((s.data.dropWhile Char.isWhitespace).reverse.dropWhile Char.isWhitespace).reverse⟩

/-- Dictionary lookup (`old_position in new_subtask_ids_by_position` and the
subsequent indexing): value of the first pair with the given key. -/
def lookupPos (l : List (Nat × Nat)) (p : Nat) : Option Nat :=
  (l.find? (fun q => q.1 == p)).map (·.2)

/-- The old visibility rows of the task joined with their subtask's
position (the rows of the step-1 SELECT of `update_subtasks`). -/
def oldVisPairs (db : DB) (task_id : Nat) :
    List (VisKey × (Nat × Option Nat)) :=
  db.visibility.filterMap (fun v =>
    match db.subtasks.find? (fun s => s.id == v.subtask_id && s.task_id == task_id) with
    | some s => some ((v.klasse_id, v.student_id, s.reihenfolge),
        (v.enabled, v.set_by_admin_id))
    | none => none)

/-- Step 1 of `update_subtasks`: the join collapsed into a dict keyed by
(klasse_id, student_id, reihenfolge) — later rows overwrite earlier ones. -/
def visibilityByPosition (db : DB) (task_id : Nat) :
    List (VisKey × (Nat × Option Nat)) :=
  (oldVisPairs db task_id).foldl (fun d kv => dictInsert d kv.1 kv.2) []

/-- Step 1b of `update_subtasks`: the distinct (material_id, reihenfolge)
pairs of the task's old material assignments (`{mid: set(pos)}`; the Python
set iterates in unspecified order, so only the set of pairs matters). -/
def materialPairsByPosition (db : DB) (task_id : Nat) : List (Nat × Nat) :=
  (db.material_subtask.filterMap (fun ms =>
    match db.subtasks.find? (fun s => s.id == ms.subtask_id && s.task_id == task_id) with
    | some s => some (ms.material_id, s.reihenfolge)
    | none => none)).dedup

/-- Step 3 of `update_subtasks`: the (position, new id) table for the
non-blank entries of the new list (blank entries keep their index but create
no subtask), ids assigned sequentially from the fresh AUTOINCREMENT base. -/
def newSubtaskIdsByPosition (base : Nat) (subtasks_list : List String) :
    List (Nat × Nat) :=
  ((subtasks_list.enum.filter (fun p => !(pyStrip p.2 == ""))).enum.map
    (fun q => (q.2.1, base + q.1)))

/-- The new `subtask` rows created by step 3 (the optional
`estimated_minutes_list`/`quiz_json_list` arguments are left at their Python
default `None`, so the new rows carry no estimate and no quiz). -/
def newSubtaskRows (base : Nat) (task_id : Nat) (subtasks_list : List String) :
    List SubtaskRow :=
  ((subtasks_list.enum.filter (fun p => !(pyStrip p.2 == ""))).enum.map
    (fun q => ⟨base + q.1, task_id, pyStrip q.2.2, q.2.1, none⟩))

/-- models.py `update_subtasks(task_id, subtasks_list)`: orphan quiz-attempt
references to the task's old subtasks (subtask_id := NULL), snapshot
visibility and material assignments by position, delete the old rows,
recreate the subtasks, and restore visibility/material for positions that
still exist. -/
def update_subtasks (db : DB) (task_id : Nat) (subtasks_list : List String) : DB :=
  let oldIds := (db.subtasks.filter (fun s => s.task_id == task_id)).map (·.id)
  -- Step 0: orphan quiz_attempt subtask references
  let qa := db.quiz_attempts.map (fun a =>
    match a.subtask_id with
    | some sid => if oldIds.contains sid then { a with subtask_id := none } else a
    | none => a)
  -- Steps 1 and 1b: snapshots by position
  let visByPos := visibilityByPosition db task_id
  let matPairs := materialPairsByPosition db task_id
  -- Step 2: delete old visibility, material assignments, and subtasks
  let vis2 := db.visibility.filter (fun v => !(oldIds.contains v.subtask_id))
  let mat2 := db.material_subtask.filter (fun ms => !(oldIds.contains ms.subtask_id))
  let subs2 := db.subtasks.filter (fun s => !(s.task_id == task_id))
  -- Step 3: create the new subtasks
  let base := nextSubtaskId db.subtasks
  let newByPos := newSubtaskIdsByPosition base subtasks_list
  let newSubs := newSubtaskRows base task_id subtasks_list
  -- Step 4: restore visibility for matching positions
  let vis3 := vis2 ++ visByPos.filterMap (fun kv =>
    match lookupPos newByPos kv.1.2.2 with
    | some nid => some (⟨nid, kv.1.1, kv.1.2.1, kv.2.1, kv.2.2⟩ : VisRow)
    | none => none)
  -- Step 4b: restore material assignments for matching positions
  let mat3 := mat2 ++ matPairs.filterMap (fun p =>
    match lookupPos newByPos p.2 with
    | some nid => some (⟨p.1, nid⟩ : MaterialSubtaskRow)
    | none => none)
  { db with subtasks := subs2 ++ newSubs, visibility := vis3,
            material_subtask := mat3, quiz_attempts := qa }

/-! ## game_models.py: record_answer (spaced repetition)

Timestamps are rationals counting hours; `timedelta(days=d)` is `24·d`
hours and `timedelta(hours=4)` is `4` hours.  The float expression
`int(1 + success_rate * times_correct * 2)` is embedded as the exact
rational floor `1 + 2·tc²/ta` (natural division).  The double evaluation
agrees with the exact floor at every input used by the theorems below: on
an all-correct history `tc/ta` is exactly `1.0` and the whole expression is
float-exact, and at the counterexample inputs the exact value is at least
`1/6` away from the nearest integer while the rounding error of three
double operations on values below `2^6` is below `2^-45`. -/

/-- Row of `game_question_history` (UNIQUE(student_id, question_pool_id)). -/
structure HistoryRow where
  student_id : Nat
  question_pool_id : Nat
  times_answered : Nat
  times_correct : Nat
  last_answered : ℚ
  next_review : ℚ
  deriving Repr, DecidableEq

/-- `int(1 + success_rate * times_correct * 2)` with
`success_rate = times_correct / times_answered` (exact floor). -/
def reviewDays (times_answered times_correct : Nat) : Nat :=
  1 + 2 * times_correct * times_correct / times_answered

/-- game_models.py `record_answer(student_id, question_pool_id, correct)`:
upsert of the history row; on an existing row the counters are bumped and
the next review is `now + min(reviewDays, 30)` days when correct and
`now + 4` hours when incorrect; a fresh row gets 1 day (correct) or
4 hours (incorrect). -/
def record_answer (rows : List HistoryRow) (student_id question_pool_id : Nat)
    (correct : Bool) (now : ℚ) : List HistoryRow :=
  match rows.find? (fun h =>
      h.student_id == student_id && h.question_pool_id == question_pool_id) with
  | some h =>
    let ta := h.times_answered + 1
    let tc := h.times_correct + (if correct then 1 else 0)
    let next : ℚ :=
      if correct then now + 24 * (min (reviewDays ta tc) 30 : Nat)
      else now + 4
    rows.map (fun r =>
      if r.student_id == student_id && r.question_pool_id == question_pool_id then
        { r with times_answered := ta, times_correct := tc,
                 last_answered := now, next_review := next }
      else r)
  | none =>
    rows ++ [⟨student_id, question_pool_id, 1, if correct then 1 else 0, now,
      now + (if correct then 24 else 4)⟩]

/-- Lookup of a history row. -/
def findHistory (rows : List HistoryRow) (student_id question_pool_id : Nat) :
    Option HistoryRow :=
  rows.find? (fun h =>
    h.student_id == student_id && h.question_pool_id == question_pool_id)

/-! ## llm_grading.py: grade_answer -/

/-- Result dict of `grade_answer`. -/
structure GradeResult where
  correct : Bool
  feedback : String
  source : String
  deriving Repr, DecidableEq

/-- llm_grading.py `FALLBACK_RESULT`. -/
def FALLBACK_RESULT : GradeResult :=
  ⟨true, "Diese Antwort wird von deinem Lehrer ausgewertet. Du kannst weiterarbeiten.",
    "fallback"⟩

/-- Outcome of the `_call_llm` helper as observed by `grade_answer`:
a parsed `{correct, feedback}` dict, `None` (empty response or missing
keys), or a raised exception (client/network error, timeout, or a JSON
parse error inside `_call_llm`). -/
inductive LLMOutcome where
  | ok (correct : Bool) (feedback : String)
  | invalid
  | exn
  deriving Repr, DecidableEq

/-- llm_grading.py `grade_answer`: a total function of the configuration
flag, the rate-limit check, and the `_call_llm` outcome — the source wraps
the call in `try/except Exception` so every failure branch returns rather
than raises. -/
def grade_answer (llm_enabled : Bool) (rate_limit_ok : Bool)
    (outcome : LLMOutcome) : GradeResult :=
  if !llm_enabled then FALLBACK_RESULT
  else if !rate_limit_ok then FALLBACK_RESULT
  else
    match outcome with
    | .ok c f => ⟨c, f, "llm"⟩
    | .invalid => FALLBACK_RESULT
    | .exn => FALLBACK_RESULT

/-! Concrete stores used to instantiate the theorems. -/

/-- The empty store. -/
def emptyDB : DB := ⟨[], [], [], [], [], [], [], []⟩

/-- Exact natural-number ceiling of `7·m/10`, the threshold formula
`max(1, ceil(max_score * 0.7))` stated by the specification. -/
def specCeilThreshold (m : Nat) : Nat := max 1 ((7 * m + 9) / 10)

/-- A single-row store with one active primary assignment
(student 5, class 7, task 9), used to refute C7 as stated. -/
def c7rows : List StudentTaskRow := [⟨1, 5, 7, 9, "primary", 0, 0⟩]

/-- A history row with 10 prior answers, none correct, used to refute the
strict-increase part of C8. -/
def c8rows : List HistoryRow := [⟨1, 1, 10, 0, 0, 0⟩]

/-- A concrete store for the C10 witness: one task with one subtask, one
assignment, and no visibility rows. -/
def c10db : DB :=
  { student_tasks := [⟨1, 5, 7, 9, "primary", 0, 0⟩]
    tasks := [⟨9, none, 0⟩]
    subtasks := [⟨4, 9, "a", 0, none⟩]
    student_subtasks := []
    quiz_attempts := []
    visibility := []
    material_subtask := []
    game_progress := [] }

/-- A concrete store for the C5 witness: one task (9) requiring subtask
quizzes, one subtask (4) carrying a quiz, visible to student 5 via a
student-specific enabled row, and no quiz attempts. -/
def c5db : DB :=
  { student_tasks := [⟨1, 5, 7, 9, "primary", 0, 0⟩]
    tasks := [⟨9, none, 1⟩]
    subtasks := [⟨4, 9, "a", 0, some "qz"⟩]
    student_subtasks := []
    quiz_attempts := []
    visibility := [⟨4, none, some 5, 1, none⟩]
    material_subtask := []
    game_progress := [] }

/-- A concrete store for the C2 witness: task 9 with two quiz-free subtasks
(ids 4 and 5), both visible to class 7, no topic quiz. -/
def c2db : DB :=
  { student_tasks := [⟨1, 5, 7, 9, "primary", 0, 0⟩]
    tasks := [⟨9, none, 0⟩]
    subtasks := [⟨4, 9, "a", 0, none⟩, ⟨5, 9, "b", 1, none⟩]
    student_subtasks := []
    quiz_attempts := []
    visibility := [⟨4, some 7, none, 1, none⟩, ⟨5, some 7, none, 1, none⟩]
    material_subtask := []
    game_progress := [] }

/-- A concrete store for the C4 counterexample: task 1 with one subtask
(id 1, position 0) and one quiz attempt referencing it. -/
def c4db : DB :=
  { student_tasks := []
    tasks := []
    subtasks := [⟨1, 1, "x", 0, none⟩]
    student_subtasks := []
    quiz_attempts := [⟨1, 1, some 1, 0, 1, 0, ""⟩]
    visibility := []
    material_subtask := []
    game_progress := [] }

/-- A concrete store for the C4 witness: task 1 with one subtask (id 1,
position 0) that carries a class-wide visibility row, a material
assignment, and a quiz attempt; the subtask list is rewritten to one
non-blank entry at the same position. -/
def c4wdb : DB :=
  { student_tasks := []
    tasks := []
    subtasks := [⟨1, 1, "x", 0, none⟩]
    student_subtasks := []
    quiz_attempts := [⟨1, 6, some 1, 0, 1, 0, ""⟩]
    visibility := [⟨1, some 7, none, 1, some 3⟩]
    material_subtask := [⟨5, 1⟩]
    game_progress := [] }

/-- Invariant of the toggle/complete fold: all tables other than
`student_subtasks` and the completion flag of the one `student_task` row
are untouched. -/
def C2Inv (db d : DB) (stid : Nat) (st0 : StudentTaskRow) : Prop :=
  d.tasks = db.tasks ∧ d.subtasks = db.subtasks ∧ d.visibility = db.visibility ∧
  d.quiz_attempts = db.quiz_attempts ∧ d.game_progress = db.game_progress ∧
  (d.student_tasks.find? (fun r => r.id == stid) = some st0 ∨
   d.student_tasks.find? (fun r => r.id == stid) = some { st0 with abgeschlossen := 1 })

/-! Helper lemmas on lists. -/

theorem countP_map_congr {α : Type} (l : List α) (f : α → α) (q : α → Bool)
    (h : ∀ a, q (f a) = q a) : (l.map f).countP q = l.countP q := by
  induction l with
  | nil => rfl
  | cons a t ih => simp [List.countP_cons, h, ih]

theorem find?_map_update {α : Type} (l : List α) (q : α → Bool) (g : α → α)
    (hq : ∀ a, q a = true → q (g a) = true) :
    (l.map (fun a => if q a then g a else a)).find? q = (l.find? q).map g := by
  induction l with
  | nil => rfl
  | cons a t ih =>
    by_cases h : q a = true
    · simp [List.find?_cons, h, hq a h]
    · simp only [List.map_cons, if_neg h, List.find?_cons, h, ih]
      simp [Bool.not_eq_true] at h
      simp [h]

theorem find?_map_invariant {α : Type} (l : List α) (q : α → Bool) (f : α → α)
    (h1 : ∀ a, q a = true → f a = a) (h2 : ∀ a, q (f a) = q a) :
    (l.map f).find? q = l.find? q := by
  induction l with
  | nil => rfl
  | cons a t ih =>
    by_cases h : q a = true
    · simp [List.find?_cons, h, h2, h1 a h]
    · simp only [List.map_cons, List.find?_cons, h2, ih]
      simp [Bool.not_eq_true] at h
      simp [h]

/-! Claim C9 (llm_grading.grade_answer error handling). -/

/-- Claim C9: `grade_answer` never raises; whenever LLM grading is disabled,
the per-student rate limit check fails, or the `_call_llm` step fails
(client error, timeout, unparseable or incomplete JSON — all of which reach
`grade_answer` either as `None` or as a caught exception), the function
returns `FALLBACK_RESULT`, which has `correct = True` and
`source = "fallback"`. -/
theorem grade_answer_fallback_on_failure (enabled rate_ok : Bool)
    (outcome : LLMOutcome)
    (h : enabled = false ∨ rate_ok = false ∨ outcome = .invalid ∨ outcome = .exn) :
    grade_answer enabled rate_ok outcome = FALLBACK_RESULT ∧
    (grade_answer enabled rate_ok outcome).correct = true ∧
    (grade_answer enabled rate_ok outcome).source = "fallback" := by
  have hres : grade_answer enabled rate_ok outcome = FALLBACK_RESULT := by
    cases enabled <;> cases rate_ok <;>
      rcases outcome with ⟨c, f⟩ | _ | _ <;> simp_all [grade_answer]
  exact ⟨hres, by rw [hres]; rfl, by rw [hres]; rfl⟩

/-- Witness for C9: the timeout/exception outcome with grading enabled and
the rate limit satisfied still yields the fallback result. -/
theorem grade_answer_fallback_on_failure_witness :
    grade_answer true true .exn = FALLBACK_RESULT ∧
    (grade_answer true true .exn).correct = true ∧
    (grade_answer true true .exn).source = "fallback" :=
  grade_answer_fallback_on_failure true true .exn (by simp)

/-! Claim C3 (save_quiz_attempt pass threshold). -/

set_option maxRecDepth 8192 in
/-- The emulated `int(max_punkte * 0.7)` agrees with the exact rational
floor `⌊7·m/10⌋` on every quiz size up to 89 (the first divergence is
`int(90 * 0.7) = 62` caused by double rounding). -/
theorem pyIntMul07_eq_floor_of_lt_90 : ∀ m : Nat, m < 90 → pyIntMul07 m = 7 * m / 10 := by
  decide

/-- Counterexample for C3: at `punkte = 2, max_punkte = 3` the code passes
the attempt (threshold `max(1, int(3*0.7)) = max(1, 2) = 2`, both returned
and persisted), while the claimed formula `punkte >= max(1, ceil(3*0.7)) =
max(1, 3) = 3` rejects it — the code's threshold truncates (the source
comment says "floor"), it does not take the ceiling. -/
theorem save_quiz_attempt_ceil_claim_false :
    (save_quiz_attempt emptyDB 1 2 3 "" none).2.2 = true ∧
    ((save_quiz_attempt emptyDB 1 2 3 "" none).1.quiz_attempts.map (·.bestanden)) = [1] ∧
    ¬ (2 ≥ specCeilThreshold 3) := by
  refine ⟨by decide, by decide, by decide⟩

set_option maxRecDepth 8192 in
/-- Claim C3, amended: the returned and persisted pass flag of
`save_quiz_attempt` equals `punkte >= max(1, floor(max_punkte * 0.7))`
(truncation of the double product, which below `max_punkte = 90` is the
exact rational floor), not the ceiling; the claim's concrete examples
(max 1: score 1 passes; max 10: score 6 fails, score 7 passes) are
unaffected because `int(10 * 0.7) = 7 = ceil(7.0)`. -/
theorem save_quiz_attempt_passed_iff_floor
    (db : DB) (st p m : Nat) (aj : String) (sid : Option Nat)
    (h1 : 1 ≤ m) (h2 : m ≤ 89) :
    ((save_quiz_attempt db st p m aj sid).2.2 = decide (p ≥ max 1 (7 * m / 10))) ∧
    ∃ row ∈ (save_quiz_attempt db st p m aj sid).1.quiz_attempts,
      row.punkte = p ∧ row.max_punkte = m ∧
      row.bestanden = (if p ≥ max 1 (7 * m / 10) then 1 else 0) := by
  have hm : 0 < m := h1
  have hfloor : pyIntMul07 m = 7 * m / 10 := pyIntMul07_eq_floor_of_lt_90 m (by omega)
  have hflag : quizBestanden p m = decide (p ≥ max 1 (7 * m / 10)) := by
    simp [quizBestanden, minPunkte, hm, hfloor]
  refine ⟨hflag, ?_⟩
  refine ⟨_, List.mem_append_right _ (List.mem_singleton.mpr rfl), rfl, rfl, ?_⟩
  simp only [hflag]
  by_cases hp : p ≥ max 1 (7 * m / 10) <;> simp [hp]

/-- Witness for the amended C3 at the claim's own example `max_punkte = 10,
punkte = 7`. -/
theorem save_quiz_attempt_passed_iff_floor_witness :
    ((save_quiz_attempt emptyDB 1 7 10 "" none).2.2 = decide (7 ≥ max 1 (7 * 10 / 10))) ∧
    ∃ row ∈ (save_quiz_attempt emptyDB 1 7 10 "" none).1.quiz_attempts,
      row.punkte = 7 ∧ row.max_punkte = 10 ∧
      row.bestanden = (if 7 ≥ max 1 (7 * 10 / 10) then 1 else 0) :=
  save_quiz_attempt_passed_iff_floor emptyDB 1 7 10 "" none (by decide) (by decide)

/-! Claim C7 (idempotent re-assignment guard). -/

/-- Counterexample for C7: re-assigning the active primary topic
(student 5, class 7, task 9, role `primary`) is NOT a no-op.  Step 1 of
`assign_task_to_student` closes the existing active primary before the
duplicate check runs, so the guard never fires for `primary`: the existing
row is modified (`abgeschlossen` flips to 1) and a new row is inserted
(the row count increases from 1 to 2). -/
theorem assign_primary_reassign_not_noop :
    (c7rows.countP (fun r => r.student_id == 5 && r.klasse_id == 7 &&
        r.task_id == 9 && r.rolle == "primary" && r.abgeschlossen == 0) = 1) ∧
    (assign_task_to_student c7rows 5 7 9 "primary").length = c7rows.length + 1 ∧
    ((assign_task_to_student c7rows 5 7 9 "primary").map (·.abgeschlossen))
      = [1, 0] ∧
    ¬ assign_task_to_student c7rows 5 7 9 "primary" = c7rows := by
  refine ⟨by decide, by decide, by decide, by decide⟩

/-- Claim C7, amended: the idempotent re-assignment guard holds for every
non-`primary` role (such as `sidequest`): when an active row with the same
(student, class, task, role) already exists, `assign_task_to_student`
returns the store unchanged — no row count increase, no row modified.  For
role `primary`, re-assignment instead completes the existing active primary
and inserts a fresh row (see the counterexample). -/
theorem assign_reassign_noop_nonprimary
    (rows : List StudentTaskRow) (s k t : Nat) (rolle : String)
    (hrolle : rolle ≠ "primary")
    (hactive : ∃ r ∈ rows, r.student_id = s ∧ r.klasse_id = k ∧
      r.task_id = t ∧ r.rolle = rolle ∧ r.abgeschlossen = 0) :
    assign_task_to_student rows s k t rolle = rows := by
  unfold assign_task_to_student
  have hb : (rolle == "primary") = false := by
    simpa using hrolle
  simp only [hb, Bool.false_eq_true, if_false]
  have hdup : rows.countP (fun r =>
      r.student_id == s && r.klasse_id == k && r.task_id == t &&
        r.rolle == rolle && r.abgeschlossen == 0) ≥ 1 := by
    rcases hactive with ⟨r, hr, h1, h2, h3, h4, h5⟩
    have : 0 < rows.countP (fun r =>
        r.student_id == s && r.klasse_id == k && r.task_id == t &&
          r.rolle == rolle && r.abgeschlossen == 0) := by
      refine List.countP_pos_iff.mpr ⟨r, hr, ?_⟩
      simp [h1, h2, h3, h4, h5]
    omega
  simp [hdup]

/-- Witness for the amended C7: re-assigning an already-active sidequest is
a no-op. -/
theorem assign_reassign_noop_nonprimary_witness :
    assign_task_to_student [⟨1, 5, 7, 9, "sidequest", 0, 0⟩] 5 7 9 "sidequest"
      = [⟨1, 5, 7, 9, "sidequest", 0, 0⟩] :=
  assign_reassign_noop_nonprimary [⟨1, 5, 7, 9, "sidequest", 0, 0⟩] 5 7 9 "sidequest"
    (by decide) ⟨⟨1, 5, 7, 9, "sidequest", 0, 0⟩, by simp, rfl, rfl, rfl, rfl, rfl⟩

/-! Claim C6 (visibility resolution rules). -/

/-- Claim C6: `get_visible_subtasks_for_student` returns exactly the
subtasks of the task for which either an enabled student-specific
visibility row for that student exists, or no student-specific row for
that student exists at all and an enabled class-wide row for that class
exists.  In particular a subtask with neither kind of row is invisible,
and a disabled student-specific row hides the subtask even when an
enabled class-wide row exists (the second disjunct requires the absence
of any student-specific row, enabled or not). -/
theorem visible_subtasks_mem_iff (db : DB) (student_id klasse_id task_id : Nat)
    (s : SubtaskRow) :
    s ∈ get_visible_subtasks_for_student db student_id klasse_id task_id ↔
      s ∈ db.subtasks ∧ s.task_id = task_id ∧
        ((∃ v ∈ db.visibility, v.student_id = some student_id ∧
            v.subtask_id = s.id ∧ v.enabled = 1) ∨
         ((¬ ∃ v ∈ db.visibility, v.subtask_id = s.id ∧
             v.student_id = some student_id) ∧
          ∃ v ∈ db.visibility, v.klasse_id = some klasse_id ∧
            v.subtask_id = s.id ∧ v.enabled = 1)) := by
  simp only [get_visible_subtasks_for_student, visibleByRules, List.mem_filter,
    Bool.and_eq_true, Bool.or_eq_true, Bool.not_eq_true', List.any_eq_true,
    List.any_eq_false, beq_iff_eq, and_assoc]
  constructor
  · rintro ⟨hmem, htask, hrules⟩
    refine ⟨hmem, htask, ?_⟩
    rcases hrules with h | ⟨⟨v, hv, h1, h2, h3⟩, hno⟩
    · rcases h with ⟨v, hv, h1, h2, h3⟩
      exact Or.inl ⟨v, hv, h1, h3, h2⟩
    · refine Or.inr ⟨?_, v, hv, h1, h3, h2⟩
      rintro ⟨w, hw, hw1, hw2⟩
      have := hno w hw
      simp [hw1, hw2] at this
  · rintro ⟨hmem, htask, hrules⟩
    refine ⟨hmem, htask, ?_⟩
    rcases hrules with ⟨v, hv, h1, h2, h3⟩ | ⟨hno, v, hv, h1, h2, h3⟩
    · exact Or.inl ⟨v, hv, h1, h3, h2⟩
    · refine Or.inr ⟨⟨v, hv, h1, h3, h2⟩, ?_⟩
      intro w hw
      by_cases hws : w.subtask_id = s.id
      · by_cases hwst : w.student_id = some student_id
        · exact absurd ⟨w, hw, hws, hwst⟩ hno
        · simp [hws, hwst]
      · simp [hws]

/-! Claim C1 (at most one active primary per student and class). -/

theorem isActivePrimary_after_close (s k s' k' : Nat) (a : StudentTaskRow)
    (h : ¬(s' = s ∧ k' = k)) :
    isActivePrimary s' k'
        (if isActivePrimary s k a then { a with abgeschlossen := 1 } else a)
      = isActivePrimary s' k' a := by
  by_cases hcond : isActivePrimary s k a = true
  · rw [if_pos hcond]
    have h1 : isActivePrimary s' k' { a with abgeschlossen := 1 } = false := by
      simp [isActivePrimary]
    rw [h1]
    simp only [isActivePrimary, Bool.and_eq_true, beq_iff_eq] at hcond
    obtain ⟨⟨⟨g1, g2⟩, _⟩, _⟩ := hcond
    symm
    rw [Bool.eq_false_iff]
    intro hcontra
    simp only [isActivePrimary, Bool.and_eq_true, beq_iff_eq] at hcontra
    obtain ⟨⟨⟨f1, f2⟩, _⟩, _⟩ := hcontra
    exact h ⟨f1.symm.trans g1, f2.symm.trans g2⟩
  · rw [if_neg hcond]

theorem countP_close_self (rows : List StudentTaskRow) (s k : Nat) :
    (rows.map (fun r =>
        if isActivePrimary s k r then { r with abgeschlossen := 1 } else r)).countP
      (isActivePrimary s k) = 0 := by
  rw [List.countP_eq_zero]
  intro a ha
  rcases List.mem_map.mp ha with ⟨b, _, rfl⟩
  by_cases h : isActivePrimary s k b = true
  · rw [if_pos h]
    simp [isActivePrimary]
  · rw [if_neg h]
    simpa using h

theorem assign_primary_step_inv (rows : List StudentTaskRow) (s k t : Nat)
    (hinv : ActivePrimaryInvariant rows) :
    ActivePrimaryInvariant (assign_task_to_student rows s k t "primary") := by
  intro s' k'
  unfold assign_task_to_student
  simp only [beq_self_eq_true, if_pos]
  by_cases hpair : s' = s ∧ k' = k
  · obtain ⟨rfl, rfl⟩ := hpair
    by_cases hdup : 1 ≤ (rows.map (fun r =>
        if isActivePrimary s' k' r then { r with abgeschlossen := 1 } else r)).countP
          (fun r => r.student_id == s' && r.klasse_id == k' && r.task_id == t &&
            r.rolle == "primary" && r.abgeschlossen == 0)
    · simp only [ge_iff_le, hdup, if_true]
      rw [countP_close_self]
      omega
    · simp only [ge_iff_le, hdup, if_false]
      rw [List.countP_append, countP_close_self]
      simp [isActivePrimary]
  · have hother := countP_map_congr rows
      (fun r => if isActivePrimary s k r then { r with abgeschlossen := 1 } else r)
      (isActivePrimary s' k') (fun a => isActivePrimary_after_close s k s' k' a hpair)
    by_cases hdup : 1 ≤ (rows.map (fun r =>
        if isActivePrimary s k r then { r with abgeschlossen := 1 } else r)).countP
          (fun r => r.student_id == s && r.klasse_id == k && r.task_id == t &&
            r.rolle == "primary" && r.abgeschlossen == 0)
    · simp only [ge_iff_le, hdup, if_true]
      rw [hother]
      exact hinv s' k'
    · simp only [ge_iff_le, hdup, if_false]
      rw [List.countP_append, hother]
      have hnew : ([(⟨nextStudentTaskId (rows.map (fun r =>
          if isActivePrimary s k r then { r with abgeschlossen := 1 } else r)),
          s, k, t, "primary", 0, 0⟩ : StudentTaskRow)]).countP (isActivePrimary s' k') = 0 := by
        rw [List.countP_eq_zero]
        intro a ha
        rw [List.mem_singleton] at ha
        subst ha
        rw [Bool.not_eq_true, Bool.eq_false_iff]
        intro hcontra
        simp only [isActivePrimary, Bool.and_eq_true, beq_iff_eq] at hcontra
        exact hpair ⟨hcontra.1.1.1.symm, hcontra.1.1.2.symm⟩
      rw [hnew]
      have := hinv s' k'
      omega

/-- Claim C1: starting from a store satisfying the at-most-one-active-primary
invariant, any finite sequence of `assign_task_to_student` calls with role
`primary` preserves the invariant: at most one `student_task` row with role
`primary` and `abgeschlossen = 0` exists per (student, class) pair.
Moreover each primary assignment first marks every existing active primary
row of the target (student, class) pair as completed: the closed copy of
any such row is present in the resulting store. -/
theorem assign_primary_sequence_invariant (rows : List StudentTaskRow)
    (calls : List (Nat × Nat × Nat)) (hinv : ActivePrimaryInvariant rows) :
    ActivePrimaryInvariant (calls.foldl (fun rs c =>
      assign_task_to_student rs c.1 c.2.1 c.2.2 "primary") rows) ∧
    (∀ s k t : Nat, ∀ r ∈ rows, isActivePrimary s k r = true →
      { r with abgeschlossen := 1 } ∈ assign_task_to_student rows s k t "primary") := by
  constructor
  · induction calls generalizing rows with
    | nil => exact hinv
    | cons c rest ih =>
      exact ih _ (assign_primary_step_inv rows c.1 c.2.1 c.2.2 hinv)
  · intro s k t r hr hact
    unfold assign_task_to_student
    simp only [beq_self_eq_true, if_pos]
    have hmem1 : ({ r with abgeschlossen := 1 } : StudentTaskRow) ∈ rows.map
        (fun a => if isActivePrimary s k a then { a with abgeschlossen := 1 } else a) := by
      refine List.mem_map.mpr ⟨r, hr, ?_⟩
      rw [if_pos hact]
    by_cases hdup : 1 ≤ (rows.map (fun a =>
        if isActivePrimary s k a then { a with abgeschlossen := 1 } else a)).countP
          (fun a => a.student_id == s && a.klasse_id == k && a.task_id == t &&
            a.rolle == "primary" && a.abgeschlossen == 0)
    · simp only [ge_iff_le, hdup, if_true]
      exact hmem1
    · simp only [ge_iff_le, hdup, if_false]
      exact List.mem_append_left _ hmem1

/-- Witness for C1: the empty store satisfies the invariant and one primary
assignment keeps it. -/
theorem assign_primary_sequence_invariant_witness :
    ActivePrimaryInvariant ([((1 : Nat), (2 : Nat), (3 : Nat))].foldl (fun rs c =>
      assign_task_to_student rs c.1 c.2.1 c.2.2 "primary") []) ∧
    (∀ s k t : Nat, ∀ r ∈ ([] : List StudentTaskRow), isActivePrimary s k r = true →
      { r with abgeschlossen := 1 } ∈ assign_task_to_student [] s k t "primary") :=
  assign_primary_sequence_invariant [] [(1, 2, 3)] (fun s k => by simp)

/-! Claim C8 (spaced repetition schedule in record_answer). -/

/-- Counterexample for C8: on a history of 10 answers with 0 correct, two
consecutive correct answers both produce a review interval of exactly one
day (24 hours): `int(1 + (1/11)·1·2) = 1` and then `int(1 + (2/12)·2·2) = 1`.
The review interval along a streak of correct answers is therefore not
strictly increasing. -/
theorem record_answer_interval_not_strictly_increasing :
    ((findHistory (record_answer c8rows 1 1 true 0) 1 1).map
        (fun h => h.next_review - h.last_answered) = some 24) ∧
    ((findHistory (record_answer (record_answer c8rows 1 1 true 0) 1 1 true 24) 1 1).map
        (fun h => h.next_review - h.last_answered) = some 24) := by
  constructor <;> simp [record_answer, c8rows, findHistory, reviewDays]

/-- Claim C8, amended: with an existing history row, an incorrect answer
sets the next review to `now + 4` hours (hours, not days); a correct answer
on an all-correct history (`times_answered = times_correct`, e.g. any
unbroken streak from the first answer) sets the interval to
`min(2·times_correct + 3, 30)` days, which grows strictly with each further
correct answer while below the cap and is capped at 30 days.  (On a mixed
history the interval is still capped but need not increase strictly — see
the counterexample.) -/
theorem record_answer_review_schedule
    (rows : List HistoryRow) (sid qid : Nat) (now : ℚ) (h : HistoryRow)
    (hfind : findHistory rows sid qid = some h) :
    ((findHistory (record_answer rows sid qid false now) sid qid).map (·.next_review)
        = some (now + 4)) ∧
    (h.times_answered = h.times_correct →
      (findHistory (record_answer rows sid qid true now) sid qid).map (·.next_review)
        = some (now + (24 : ℚ) * ((min (2 * h.times_correct + 3) 30 : Nat) : ℚ))) ∧
    (∀ c : Nat, min (2 * c + 3) 30 ≤ 30 ∧
      (2 * c + 3 < 30 → min (2 * c + 3) 30 < min (2 * (c + 1) + 3) 30)) := by
  rw [findHistory] at hfind
  refine ⟨?_, ?_, ?_⟩
  · rw [record_answer, hfind, findHistory]
    rw [find?_map_update _ _ _ (by intro a ha; simpa using ha)]
    rw [hfind]
    rfl
  · intro hperfect
    rw [record_answer, hfind, findHistory]
    rw [find?_map_update _ _ _ (by intro a ha; simpa using ha)]
    rw [hfind]
    have hdays : reviewDays (h.times_answered + 1) (h.times_correct + 1)
        = 2 * h.times_correct + 3 := by
      rw [reviewDays, hperfect]
      have : 2 * (h.times_correct + 1) * (h.times_correct + 1) / (h.times_correct + 1)
          = 2 * (h.times_correct + 1) :=
        Nat.mul_div_cancel _ (Nat.succ_pos _)
      rw [this]
      omega
    simp [hdays]
  · intro c
    constructor
    · exact min_le_right _ _
    · intro hlt
      omega

/-- Witness for the amended C8: a fresh all-correct history (2 of 2) gets a
4-hour retry on a wrong answer and a 7-day interval on the next correct
answer. -/
theorem record_answer_review_schedule_witness :
    ((findHistory (record_answer [(⟨1, 1, 2, 2, 0, 0⟩ : HistoryRow)] 1 1 false 100) 1 1).map
        (·.next_review) = some ((100 : ℚ) + 4)) ∧
    ((⟨1, 1, 2, 2, 0, 0⟩ : HistoryRow).times_answered
        = (⟨1, 1, 2, 2, 0, 0⟩ : HistoryRow).times_correct →
      (findHistory (record_answer [(⟨1, 1, 2, 2, 0, 0⟩ : HistoryRow)] 1 1 true 100) 1 1).map
        (·.next_review)
        = some ((100 : ℚ) + (24 : ℚ) *
            ((min (2 * (⟨1, 1, 2, 2, 0, 0⟩ : HistoryRow).times_correct + 3) 30 : Nat) : ℚ))) ∧
    (∀ c : Nat, min (2 * c + 3) 30 ≤ 30 ∧
      (2 * c + 3 < 30 → min (2 * c + 3) 30 < min (2 * (c + 1) + 3) 30)) :=
  record_answer_review_schedule [⟨1, 1, 2, 2, 0, 0⟩] 1 1 100 ⟨1, 1, 2, 2, 0, 0⟩ rfl

/-! Claim C10 (completion check with an empty visible-subtask set). -/

/-- Claim C10: for a student_task whose task has subtasks but where no
subtask_visibility row applies to the student or the class (so the visible
set is empty) and whose task has no topic-level quiz,
`check_task_completion` returns True immediately — regardless of the
`student_subtask` table, i.e. without any subtask being ticked. -/
theorem check_completion_empty_visible (db : DB) (stid : Nat)
    (st : StudentTaskRow) (tk : TaskRow)
    (hst : db.student_tasks.find? (fun r => r.id == stid) = some st)
    (htask : db.tasks.find? (fun t => t.id == st.task_id) = some tk)
    (hquiz : tk.quizJson = none)
    (hsubs : ∃ s ∈ db.subtasks, s.task_id = st.task_id)
    (hvis : ∀ v ∈ db.visibility,
      v.student_id ≠ some st.student_id ∧ v.klasse_id ≠ some st.klasse_id) :
    check_task_completion db stid = true := by
  have hempty : get_visible_subtasks_for_student db st.student_id st.klasse_id st.task_id
      = [] := by
    rw [get_visible_subtasks_for_student, List.filter_eq_nil_iff]
    intro s _
    rw [Bool.not_eq_true, Bool.and_eq_false_iff]
    right
    rw [visibleByRules, Bool.or_eq_false_iff]
    constructor
    · rw [List.any_eq_false]
      intro v hv
      have := (hvis v hv).1
      simp [this]
    · rw [Bool.and_eq_false_iff]
      left
      rw [List.any_eq_false]
      intro v hv
      have := (hvis v hv).2
      simp [this]
  rw [check_task_completion, hst]
  simp only [hempty, htask, hquiz, List.all_nil, Bool.not_true, if_false]
  rfl

/-- Witness for C10: in `c10db` the (unticked, invisible) subtask does not
block completion. -/
theorem check_completion_empty_visible_witness :
    check_task_completion c10db 1 = true :=
  check_completion_empty_visible c10db 1 ⟨1, 5, 7, 9, "primary", 0, 0⟩ ⟨9, none, 0⟩
    rfl rfl rfl ⟨⟨4, 9, "a", 0, none⟩, by simp [c10db], rfl⟩
    (by intro v hv; simp [c10db] at hv)

/-! Claim C5 (subtask quiz gating). -/

theorem getErledigt_upsert (rows : List StudentSubtaskRow) (st sub e : Nat) :
    getErledigt (upsertStudentSubtask rows st sub e) st sub = e := by
  rw [upsertStudentSubtask]
  by_cases hany : rows.any (fun r => r.student_task_id == st && r.subtask_id == sub) = true
  · rw [if_pos hany, getErledigt]
    rw [find?_map_update rows _ (fun _ => ⟨st, sub, e⟩) (by intro a _; simp)]
    rcases List.any_eq_true.mp hany with ⟨r, hr, hpred⟩
    cases hfind : rows.find? (fun r => r.student_task_id == st && r.subtask_id == sub) with
    | none => exact absurd hpred (by simpa using List.find?_eq_none.mp hfind r hr)
    | some b => simp [hfind]
  · rw [if_neg hany, getErledigt]
    have hanyf : rows.any (fun r => r.student_task_id == st && r.subtask_id == sub)
        = false := by
      simpa using hany
    have hnone : rows.find? (fun r => r.student_task_id == st && r.subtask_id == sub)
        = none := by
      rw [List.find?_eq_none]
      intro x hx
      simpa using List.any_eq_false.mp hanyf x hx
    rw [List.find?_append, hnone]
    simp

theorem getErledigt_upsert_other (rows : List StudentSubtaskRow)
    (st sub e st' sub' : Nat) (h : ¬(st = st' ∧ sub = sub')) :
    getErledigt (upsertStudentSubtask rows st sub e) st' sub'
      = getErledigt rows st' sub' := by
  have hkey : ∀ a : StudentSubtaskRow,
      (a.student_task_id == st' && a.subtask_id == sub') = true →
      (a.student_task_id == st && a.subtask_id == sub) = false := by
    intro a ha
    simp only [Bool.and_eq_true, beq_iff_eq] at ha
    rw [Bool.eq_false_iff]
    intro hcontra
    simp only [Bool.and_eq_true, beq_iff_eq] at hcontra
    exact h ⟨hcontra.1.symm.trans ha.1, hcontra.2.symm.trans ha.2⟩
  have hnewkey : (((⟨st, sub, e⟩ : StudentSubtaskRow).student_task_id == st') &&
      ((⟨st, sub, e⟩ : StudentSubtaskRow).subtask_id == sub')) = false := by
    rw [Bool.eq_false_iff]
    intro hcontra
    simp only [Bool.and_eq_true, beq_iff_eq] at hcontra
    exact h ⟨hcontra.1, hcontra.2⟩
  rw [upsertStudentSubtask]
  by_cases hany : rows.any (fun r => r.student_task_id == st && r.subtask_id == sub) = true
  · rw [if_pos hany, getErledigt, getErledigt]
    rw [find?_map_invariant]
    · intro a ha
      simp [hkey a ha]
    · intro a
      by_cases hc : (a.student_task_id == st && a.subtask_id == sub) = true
      · rw [if_pos hc]
        rw [hnewkey]
        symm
        rw [Bool.eq_false_iff]
        intro hcontra
        have hfalse := hkey a hcontra
        rw [hc] at hfalse
        exact absurd hfalse (by simp)
      · rw [if_neg hc]
  · rw [if_neg hany, getErledigt, getErledigt, List.find?_append]
    have hlast : ([(⟨st, sub, e⟩ : StudentSubtaskRow)]).find?
        (fun r => r.student_task_id == st' && r.subtask_id == sub') = none := by
      simp only [List.find?_cons, hnewkey]
      rfl
    rw [hlast]
    cases rows.find? (fun r => r.student_task_id == st' && r.subtask_id == sub') <;> rfl

/-- Claim C5: when subtask `sub` carries a quiz (`quiz_json` truthy), its
owning task requires subtask quizzes, and no passing quiz attempt exists for
the pair, then `toggle_student_subtask(st, sub, True)` still records
`erledigt = 1`, returns `quiz_pending = True`, and the route-level
advance/completion step is withheld (the store after `toggleAndComplete`
is exactly the store after the bare upsert, and no `student_task` row
changes); while `sub` is visible to the student and no passing attempt for
(student_task, sub) exists, `check_task_completion` returns False. -/
theorem toggle_subtask_quiz_gating
    (db : DB) (stid : Nat) (st : StudentTaskRow) (sub : SubtaskRow)
    (hsub : db.subtasks.find? (fun s => s.id == sub.id) = some sub)
    (hquiz : isTruthy sub.quizJson = true)
    (hst : db.student_tasks.find? (fun r => r.id == stid) = some st)
    (hreq : subtaskQuizRequired db st.task_id = true)
    (hnopass : hasPassedAttempt db.quiz_attempts stid (some sub.id) = false)
    (hvismem : sub ∈ get_visible_subtasks_for_student db st.student_id st.klasse_id st.task_id) :
    ((toggle_student_subtask db stid sub.id true).2.quiz_pending = true) ∧
    (getErledigt (toggle_student_subtask db stid sub.id true).1.student_subtasks
        stid sub.id = 1) ∧
    (toggleAndComplete db stid sub.id true = (toggle_student_subtask db stid sub.id true).1) ∧
    ((toggle_student_subtask db stid sub.id true).1.student_tasks = db.student_tasks) ∧
    ((toggle_student_subtask db stid sub.id true).1.quiz_attempts = db.quiz_attempts) ∧
    (check_task_completion (toggle_student_subtask db stid sub.id true).1 stid = false) := by
  have hT : toggle_student_subtask db stid sub.id true
      = ({ db with student_subtasks :=
            upsertStudentSubtask db.student_subtasks stid sub.id 1 },
         ⟨true, sub.id⟩) := by
    rw [toggle_student_subtask]
    simp only [hsub, hst, hquiz, hreq, hnopass, if_true, Bool.not_false, Bool.and_true,
      Bool.and_self, Bool.true_and, Bool.not_true, Bool.and_false, Bool.false_and]
  have hcheck : check_task_completion (toggle_student_subtask db stid sub.id true).1 stid
      = false := by
    rw [hT]
    rw [check_task_completion]
    have hst' : ({ db with student_subtasks :=
        upsertStudentSubtask db.student_subtasks stid sub.id 1 } : DB).student_tasks.find?
          (fun r => r.id == stid) = some st := hst
    rw [hst']
    have hvis' : get_visible_subtasks_for_student
        ({ db with student_subtasks :=
            upsertStudentSubtask db.student_subtasks stid sub.id 1 } : DB)
          st.student_id st.klasse_id st.task_id
        = get_visible_subtasks_for_student db st.student_id st.klasse_id st.task_id := rfl
    have hsubsOk : (get_visible_subtasks_for_student db st.student_id st.klasse_id
        st.task_id).all (fun s =>
          getErledigt (upsertStudentSubtask db.student_subtasks stid sub.id 1) stid s.id == 1 &&
          (!(subtaskQuizRequired db st.task_id && isTruthy s.quizJson) ||
            hasPassedAttempt db.quiz_attempts stid (some s.id))) = false := by
      rw [Bool.eq_false_iff]
      intro hall
      have hsub' := List.all_eq_true.mp hall sub hvismem
      rw [hreq, hquiz, hnopass] at hsub'
      simp at hsub'
    simp only [hvis']
    simp only [subtaskQuizRequired] at hsubsOk ⊢
    simp only [hsubsOk]
    rfl
  refine ⟨by rw [hT], ?_, ?_, by rw [hT], by rw [hT], hcheck⟩
  · rw [hT]
    exact getErledigt_upsert _ _ _ _
  · rw [toggleAndComplete, hT]
    rfl

/-- Witness for C5 in the concrete store `c5db`. -/
theorem toggle_subtask_quiz_gating_witness :
    ((toggle_student_subtask c5db 1 (⟨4, 9, "a", 0, some "qz"⟩ : SubtaskRow).id true).2.quiz_pending = true) ∧
    (getErledigt (toggle_student_subtask c5db 1 (⟨4, 9, "a", 0, some "qz"⟩ : SubtaskRow).id true).1.student_subtasks
        1 (⟨4, 9, "a", 0, some "qz"⟩ : SubtaskRow).id = 1) ∧
    (toggleAndComplete c5db 1 (⟨4, 9, "a", 0, some "qz"⟩ : SubtaskRow).id true
      = (toggle_student_subtask c5db 1 (⟨4, 9, "a", 0, some "qz"⟩ : SubtaskRow).id true).1) ∧
    ((toggle_student_subtask c5db 1 (⟨4, 9, "a", 0, some "qz"⟩ : SubtaskRow).id true).1.student_tasks
      = c5db.student_tasks) ∧
    ((toggle_student_subtask c5db 1 (⟨4, 9, "a", 0, some "qz"⟩ : SubtaskRow).id true).1.quiz_attempts
      = c5db.quiz_attempts) ∧
    (check_task_completion (toggle_student_subtask c5db 1 (⟨4, 9, "a", 0, some "qz"⟩ : SubtaskRow).id true).1 1 = false) :=
  toggle_subtask_quiz_gating c5db 1 ⟨1, 5, 7, 9, "primary", 0, 0⟩ ⟨4, 9, "a", 0, some "qz"⟩
    rfl rfl rfl rfl rfl (by simp [c5db, get_visible_subtasks_for_student, visibleByRules])

/-! Claim C2 (full completion scenario). -/

theorem toggle_fst (d : DB) (stid i : Nat) (e : Bool) :
    (toggle_student_subtask d stid i e).1
      = { d with student_subtasks :=
            upsertStudentSubtask d.student_subtasks stid i (if e then 1 else 0) } := by
  rw [toggle_student_subtask]
  cases e <;> simp only [if_true, if_false, Bool.false_eq_true] <;> split <;> rfl

theorem toggleAndComplete_cases (d : DB) (stid i : Nat) (e : Bool) :
    toggleAndComplete d stid i e = (toggle_student_subtask d stid i e).1 ∨
    toggleAndComplete d stid i e
      = mark_task_complete (toggle_student_subtask d stid i e).1 stid false := by
  rw [toggleAndComplete]
  rcases htog : toggle_student_subtask d stid i e with ⟨D, R⟩
  by_cases hp : R.quiz_pending = true
  · left
    simp [hp]
  · rw [Bool.not_eq_true] at hp
    by_cases hc : check_task_completion D stid = true
    · right
      simp [hp, hc]
    · left
      rw [Bool.not_eq_true] at hc
      simp [hp, hc]

theorem mark_find? (d : DB) (stid : Nat) :
    (mark_task_complete d stid false).student_tasks.find? (fun r => r.id == stid)
      = (d.student_tasks.find? (fun r => r.id == stid)).map
          (fun r => { r with abgeschlossen := 1 }) := by
  rw [mark_task_complete]
  simp only [Bool.false_eq_true, if_false]
  exact find?_map_update _ _ _ (by intro a ha; simpa using ha)

theorem C2Inv_step (db d : DB) (stid : Nat) (st0 : StudentTaskRow) (i : Nat) (e : Bool)
    (h : C2Inv db d stid st0) :
    C2Inv db (toggleAndComplete d stid i e) stid st0 := by
  obtain ⟨h1, h2, h3, h4, h5, h6⟩ := h
  have hupd : ∀ X : DB, X.student_tasks = d.student_tasks →
      (mark_task_complete X stid false).student_tasks.find? (fun r => r.id == stid)
        = some { st0 with abgeschlossen := 1 } := by
    intro X hX
    rw [mark_find?, hX]
    rcases h6 with h6 | h6 <;> rw [h6] <;> rfl
  rcases toggleAndComplete_cases d stid i e with hcase | hcase <;> rw [hcase, toggle_fst]
  · exact ⟨h1, h2, h3, h4, h5, h6⟩
  · exact ⟨h1, h2, h3, h4, h5, Or.inr (hupd _ rfl)⟩

theorem C2Inv_foldl (db : DB) (stid : Nat) (st0 : StudentTaskRow) (l : List Nat) (d : DB)
    (h : C2Inv db d stid st0) :
    C2Inv db (l.foldl (fun d' i => toggleAndComplete d' stid i true) d) stid st0 := by
  induction l generalizing d with
  | nil => exact h
  | cons a t ih => exact ih _ (C2Inv_step db d stid st0 a true h)

theorem tAC_erledigt_set (d : DB) (stid i : Nat) :
    getErledigt (toggleAndComplete d stid i true).student_subtasks stid i = 1 := by
  rcases toggleAndComplete_cases d stid i true with hcase | hcase <;>
    rw [hcase, toggle_fst]
  · exact getErledigt_upsert _ _ _ _
  · exact getErledigt_upsert _ _ _ _

theorem tAC_erledigt_keep (d : DB) (stid i j : Nat) (e : Bool) (hne : j ≠ i) :
    getErledigt (toggleAndComplete d stid i e).student_subtasks stid j
      = getErledigt d.student_subtasks stid j := by
  rcases toggleAndComplete_cases d stid i e with hcase | hcase <;>
    rw [hcase, toggle_fst]
  · exact getErledigt_upsert_other _ _ _ _ _ _ (fun hc => hne hc.2.symm)
  · exact getErledigt_upsert_other _ _ _ _ _ _ (fun hc => hne hc.2.symm)

theorem fold_erledigt_keep (stid : Nat) (l : List Nat) (d : DB) (j : Nat)
    (hj : j ∉ l) :
    getErledigt ((l.foldl (fun d' i => toggleAndComplete d' stid i true) d).student_subtasks)
      stid j = getErledigt d.student_subtasks stid j := by
  induction l generalizing d with
  | nil => rfl
  | cons a t ih =>
    have hja : j ≠ a := fun hc => hj (hc ▸ List.mem_cons_self a t)
    have hjt : j ∉ t := fun hc => hj (List.mem_cons_of_mem a hc)
    rw [List.foldl_cons, ih _ hjt, tAC_erledigt_keep d stid a j true hja]

theorem fold_erledigt_set (stid : Nat) (l : List Nat) (d : DB) (j : Nat)
    (hj : j ∈ l) :
    getErledigt ((l.foldl (fun d' i => toggleAndComplete d' stid i true) d).student_subtasks)
      stid j = 1 := by
  induction l generalizing d with
  | nil => exact absurd hj (List.not_mem_nil j)
  | cons a t ih =>
    by_cases hjt : j ∈ t
    · rw [List.foldl_cons]
      exact ih _ hjt
    · have hja : j = a := by
        rcases List.mem_cons.mp hj with h | h
        · exact h
        · exact absurd h hjt
      subst hja
      rw [List.foldl_cons, fold_erledigt_keep stid t _ j hjt]
      exact tAC_erledigt_set d stid j

theorem find?_by_id_of_nodup (l : List SubtaskRow)
    (hn : (l.map (·.id)).Nodup) (s : SubtaskRow) (hs : s ∈ l) :
    l.find? (fun x => x.id == s.id) = some s := by
  induction l with
  | nil => exact absurd hs (List.not_mem_nil s)
  | cons b t ih =>
    rcases List.mem_cons.mp hs with h | h
    · subst h
      simp [List.find?_cons]
    · have hbne : (b.id == s.id) = false := by
        rw [beq_eq_false_iff_ne]
        intro hc
        have hb : b.id ∈ t.map (·.id) := hc ▸ List.mem_map_of_mem (·.id) h
        exact (List.nodup_cons.mp hn).1 hb
      rw [List.find?_cons, hbne]
      exact ih (List.nodup_cons.mp hn).2 h

/-- `check_task_completion` succeeds when every subtask of the task is
ticked and quiz-free and the task has no topic quiz. -/
theorem check_completion_all_erledigt (d : DB) (stid : Nat)
    (stX : StudentTaskRow) (tk : TaskRow)
    (hst : d.student_tasks.find? (fun r => r.id == stid) = some stX)
    (htask : d.tasks.find? (fun t => t.id == stX.task_id) = some tk)
    (htquiz : tk.quizJson = none)
    (hall : ∀ s ∈ d.subtasks, s.task_id = stX.task_id →
      getErledigt d.student_subtasks stid s.id = 1 ∧ isTruthy s.quizJson = false) :
    check_task_completion d stid = true := by
  rw [check_task_completion, hst]
  have hok : (get_visible_subtasks_for_student d stX.student_id stX.klasse_id
      stX.task_id).all (fun sub =>
        getErledigt d.student_subtasks stid sub.id == 1 &&
        (!(subtaskQuizRequired d stX.task_id && isTruthy sub.quizJson) ||
          hasPassedAttempt d.quiz_attempts stid (some sub.id))) = true := by
    rw [List.all_eq_true]
    intro sub hsub
    rw [get_visible_subtasks_for_student, List.mem_filter] at hsub
    obtain ⟨hmem, hpred⟩ := hsub
    have htaskeq : sub.task_id = stX.task_id := by
      have hp := hpred
      simp only [Bool.and_eq_true, beq_iff_eq] at hp
      exact hp.1
    obtain ⟨herl, hqz⟩ := hall sub hmem htaskeq
    rw [herl, hqz, Bool.and_false, Bool.not_false]
    rfl
  simp only [hok, Bool.not_true, Bool.false_eq_true, if_false, htask, htquiz]

theorem toggle_not_pending_of_noquiz (d : DB) (stid i : Nat) (s : SubtaskRow)
    (hfind : d.subtasks.find? (fun x => x.id == i) = some s)
    (hq : isTruthy s.quizJson = false) :
    (toggle_student_subtask d stid i true).2 = ⟨false, i⟩ := by
  rw [toggle_student_subtask]
  simp only [hfind, hq, if_true, Bool.false_and, Bool.and_false, if_false,
    Bool.false_eq_true]

theorem tAC_eq_mark_of (d : DB) (stid i : Nat)
    (hnp : (toggle_student_subtask d stid i true).2.quiz_pending = false)
    (hc : check_task_completion (toggle_student_subtask d stid i true).1 stid = true) :
    toggleAndComplete d stid i true
      = mark_task_complete (toggle_student_subtask d stid i true).1 stid false := by
  rw [toggleAndComplete]
  rcases htog : toggle_student_subtask d stid i true with ⟨D, R⟩
  rw [htog] at hnp hc
  simp only at hnp hc
  simp [hnp, hc]

/-- Claim C2: for a task whose subtasks all carry no quiz and which has no
topic-level quiz, calling the subtask toggle (with its route-level
completion step, app.py lines 1553–1574) with `erledigt=True` for every
subtask of the task leaves the `student_task` row with `abgeschlossen = 1`
and `manuell_abgeschlossen = 0`: the completion check succeeds and triggers
`mark_task_complete` with `manual=False`. -/
theorem toggle_all_subtasks_completes
    (db : DB) (stid : Nat) (st0 : StudentTaskRow) (tk : TaskRow) (ids : List Nat)
    (hst : db.student_tasks.find? (fun r => r.id == stid) = some st0)
    (hman : st0.manuell_abgeschlossen = 0)
    (htask : db.tasks.find? (fun t => t.id == st0.task_id) = some tk)
    (htquiz : tk.quizJson = none)
    (hnoquiz : ∀ s ∈ db.subtasks, s.task_id = st0.task_id → s.quizJson = none)
    (hcover : ∀ s ∈ db.subtasks, s.task_id = st0.task_id → s.id ∈ ids)
    (hin : ∀ i ∈ ids, ∃ s ∈ db.subtasks, s.task_id = st0.task_id ∧ s.id = i)
    (hnodup : (db.subtasks.map (·.id)).Nodup)
    (hne : ids ≠ []) :
    ∃ r : StudentTaskRow,
      (ids.foldl (fun d i => toggleAndComplete d stid i true) db).student_tasks.find?
          (fun x => x.id == stid) = some r ∧
      r.abgeschlossen = 1 ∧ r.manuell_abgeschlossen = 0 := by
  rcases List.eq_nil_or_concat' ids with hnil | ⟨pre, last, hconcat⟩
  · exact absurd hnil hne
  subst hconcat
  rw [List.foldl_append, List.foldl_cons, List.foldl_nil]
  have hInv : C2Inv db (pre.foldl (fun d i => toggleAndComplete d stid i true) db)
      stid st0 :=
    C2Inv_foldl db stid st0 pre db ⟨rfl, rfl, rfl, rfl, rfl, Or.inl hst⟩
  obtain ⟨h1, h2, h3, h4, h5, h6⟩ := hInv
  obtain ⟨sl, hslmem, hsltask, hslid⟩ := hin last (by simp)
  obtain ⟨stX, hstX, hXtask, hXupd⟩ :
      ∃ stX : StudentTaskRow,
        (pre.foldl (fun d i => toggleAndComplete d stid i true) db).student_tasks.find?
            (fun r => r.id == stid) = some stX ∧
        stX.task_id = st0.task_id ∧
        ({ stX with abgeschlossen := 1 } : StudentTaskRow)
          = { st0 with abgeschlossen := 1 } := by
    rcases h6 with h6 | h6
    · exact ⟨st0, h6, rfl, rfl⟩
    · exact ⟨_, h6, rfl, rfl⟩
  have hfindsub : (pre.foldl (fun d i => toggleAndComplete d stid i true) db).subtasks.find?
      (fun x => x.id == last) = some sl := by
    rw [h2, ← hslid]
    exact find?_by_id_of_nodup db.subtasks hnodup sl hslmem
  have hslq : isTruthy sl.quizJson = false := by
    rw [hnoquiz sl hslmem hsltask]
    rfl
  have hnp : (toggle_student_subtask
      (pre.foldl (fun d i => toggleAndComplete d stid i true) db) stid last true).2
        = ⟨false, last⟩ :=
    toggle_not_pending_of_noquiz _ stid last sl hfindsub hslq
  have hT1 := toggle_fst (pre.foldl (fun d i => toggleAndComplete d stid i true) db)
    stid last true
  have hstT1 : (toggle_student_subtask
      (pre.foldl (fun d i => toggleAndComplete d stid i true) db) stid last
        true).1.student_tasks.find? (fun r => r.id == stid) = some stX := by
    rw [hT1]
    exact hstX
  have hcheck : check_task_completion (toggle_student_subtask
      (pre.foldl (fun d i => toggleAndComplete d stid i true) db) stid last true).1 stid
        = true := by
    apply check_completion_all_erledigt _ stid stX tk hstT1
    · rw [hT1]
      show (pre.foldl (fun d i => toggleAndComplete d stid i true) db).tasks.find?
          (fun t => t.id == stX.task_id) = some tk
      rw [h1, hXtask]
      exact htask
    · exact htquiz
    · intro s hs hstask
      rw [hT1] at hs
      have hs' : s ∈ db.subtasks := by
        rw [← h2]
        exact hs
      have hstask' : s.task_id = st0.task_id := by
        rw [hstask, hXtask]
      constructor
      · rw [hT1]
        show getErledigt (upsertStudentSubtask
            (pre.foldl (fun d i => toggleAndComplete d stid i true) db).student_subtasks
              stid last (if true then 1 else 0)) stid s.id = 1
        by_cases hsl : s.id = last
        · rw [hsl]
          have := getErledigt_upsert
            (pre.foldl (fun d i => toggleAndComplete d stid i true) db).student_subtasks
              stid last (if true then 1 else 0)
          simpa using this
        · rw [getErledigt_upsert_other _ _ _ _ _ _ (fun hc => hsl hc.2.symm)]
          apply fold_erledigt_set stid pre db s.id
          have hmem2 : s.id ∈ pre ++ [last] := hcover s hs' hstask'
          rcases List.mem_append.mp hmem2 with h | h
          · exact h
          · exact absurd (List.mem_singleton.mp h) hsl
      · rw [hnoquiz s hs' hstask']
        rfl
  have hmark := tAC_eq_mark_of
    (pre.foldl (fun d i => toggleAndComplete d stid i true) db) stid last
    (by rw [hnp]) hcheck
  rw [hmark]
  refine ⟨{ st0 with abgeschlossen := 1 }, ?_, rfl, hman⟩
  rw [mark_find?, hstT1, Option.map_some']
  rw [hXupd]

/-- Witness for C2 in the concrete store `c2db` (two visible quiz-free
subtasks, no topic quiz): toggling subtasks 4 and 5 completes the task
organically. -/
theorem toggle_all_subtasks_completes_witness :
    ∃ r : StudentTaskRow,
      (([4, 5] : List Nat).foldl (fun d i => toggleAndComplete d 1 i true)
          c2db).student_tasks.find? (fun x => x.id == 1) = some r ∧
      r.abgeschlossen = 1 ∧ r.manuell_abgeschlossen = 0 :=
  toggle_all_subtasks_completes c2db 1 ⟨1, 5, 7, 9, "primary", 0, 0⟩ ⟨9, none, 0⟩ [4, 5]
    rfl rfl rfl rfl (by decide) (by decide) (by decide) (by decide) (by decide)

/-! Claim C4 (replace-all subtask rewrite). -/

/-- Counterexample for C4: rewriting task 1's subtask list (one subtask at
position 0, kept at position 0 with new id 2) does NOT remap the existing
quiz-attempt reference to the new subtask: step 0 of `update_subtasks` sets
`subtask_id = NULL`, so the attempt survives as a topic-level attempt and no
attempt references any subtask of the task afterwards. -/
theorem update_subtasks_nulls_attempt_refs :
    ((update_subtasks c4db 1 ["y"]).subtasks.map (·.id) = [2]) ∧
    ((update_subtasks c4db 1 ["y"]).quiz_attempts.map (·.subtask_id) = [none]) ∧
    (∀ a ∈ (update_subtasks c4db 1 ["y"]).quiz_attempts,
      ∀ s ∈ (update_subtasks c4db 1 ["y"]).subtasks, a.subtask_id ≠ some s.id) := by
  refine ⟨by decide, by decide, by decide⟩

theorem le_foldr_max (l : List Nat) (a : Nat) (ha : a ∈ l) : a ≤ l.foldr max 0 := by
  induction l with
  | nil => cases ha
  | cons b t ih =>
    rcases List.mem_cons.mp ha with h | h
    · subst h
      exact le_max_left _ _
    · exact le_trans (ih h) (le_max_right _ _)

theorem subtask_id_lt_next (rows : List SubtaskRow) (s : SubtaskRow) (hs : s ∈ rows) :
    s.id < nextSubtaskId rows := by
  have := le_foldr_max (rows.map (·.id)) s.id (List.mem_map_of_mem _ hs)
  rw [nextSubtaskId]
  omega

theorem mem_dictInsert {K V : Type} [BEq K] (d : List (K × V)) (k : K) (v : V)
    (e : K × V) (he : e ∈ dictInsert d k v) : e ∈ d ∨ e = (k, v) := by
  rw [dictInsert] at he
  by_cases h : (d.any fun kv => kv.1 == k) = true
  · rw [if_pos h] at he
    rcases List.mem_map.mp he with ⟨kv0, hkv0, heq⟩
    by_cases hk : (kv0.1 == k) = true
    · rw [if_pos hk] at heq
      right
      exact heq.symm
    · rw [if_neg hk] at heq
      left
      exact heq ▸ hkv0
  · rw [if_neg h] at he
    rcases List.mem_append.mp he with h' | h'
    · left
      exact h'
    · right
      exact List.mem_singleton.mp h'

theorem mem_dictInsert_self {K V : Type} [BEq K] [LawfulBEq K]
    (d : List (K × V)) (k : K) (v : V) : (k, v) ∈ dictInsert d k v := by
  rw [dictInsert]
  by_cases h : (d.any fun kv => kv.1 == k) = true
  · rw [if_pos h]
    rcases List.any_eq_true.mp h with ⟨kv0, hkv0, hpred⟩
    refine List.mem_map.mpr ⟨kv0, hkv0, ?_⟩
    rw [if_pos hpred]
  · rw [if_neg h]
    exact List.mem_append_right _ (List.mem_singleton.mpr rfl)

theorem mem_dictInsert_of_ne {K V : Type} [BEq K] [LawfulBEq K]
    (d : List (K × V)) (k' : K) (v' : V) (e : K × V)
    (he : e ∈ d) (hne : e.1 ≠ k') : e ∈ dictInsert d k' v' := by
  rw [dictInsert]
  by_cases h : (d.any fun kv => kv.1 == k') = true
  · rw [if_pos h]
    refine List.mem_map.mpr ⟨e, he, ?_⟩
    have : (e.1 == k') = false := beq_eq_false_iff_ne.mpr hne
    rw [if_neg]
    rw [this]
    simp
  · rw [if_neg h]
    exact List.mem_append_left _ he

theorem mem_dictFold_keep {K V : Type} [BEq K] [LawfulBEq K]
    (pairs : List (K × V)) (d : List (K × V)) (e : K × V)
    (he : e ∈ d) (hk : e.1 ∉ pairs.map Prod.fst) :
    e ∈ pairs.foldl (fun acc p => dictInsert acc p.1 p.2) d := by
  induction pairs generalizing d with
  | nil => exact he
  | cons p t ih =>
    rw [List.foldl_cons]
    apply ih (dictInsert d p.1 p.2)
    · apply mem_dictInsert_of_ne _ _ _ _ he
      intro hc
      exact hk (by rw [List.map_cons, hc]; exact List.mem_cons_self _ _)
    · intro hc
      exact hk (by rw [List.map_cons]; exact List.mem_cons_of_mem _ hc)

theorem mem_dictFold_of_mem {K V : Type} [BEq K] [LawfulBEq K]
    (pairs : List (K × V)) (d : List (K × V)) (e : K × V)
    (he : e ∈ pairs) (hnd : (pairs.map Prod.fst).Nodup) :
    e ∈ pairs.foldl (fun acc p => dictInsert acc p.1 p.2) d := by
  induction pairs generalizing d with
  | nil => cases he
  | cons p t ih =>
    rw [List.foldl_cons]
    rcases List.mem_cons.mp he with h | h
    · subst h
      apply mem_dictFold_keep t _ e
      · exact mem_dictInsert_self d e.1 e.2
      · rw [List.map_cons] at hnd
        exact (List.nodup_cons.mp hnd).1
    · apply ih
      · exact h
      · rw [List.map_cons] at hnd
        exact (List.nodup_cons.mp hnd).2

theorem mem_dictFold_src {K V : Type} [BEq K]
    (pairs : List (K × V)) (d : List (K × V)) (e : K × V)
    (he : e ∈ pairs.foldl (fun acc p => dictInsert acc p.1 p.2) d) :
    e ∈ d ∨ e ∈ pairs := by
  induction pairs generalizing d with
  | nil => exact Or.inl he
  | cons p t ih =>
    rw [List.foldl_cons] at he
    rcases ih (dictInsert d p.1 p.2) he with h | h
    · rcases mem_dictInsert _ _ _ _ h with h' | h'
      · exact Or.inl h'
      · right
        rw [h']
        exact List.mem_cons_self p t
    · exact Or.inr (List.mem_cons_of_mem p h)

theorem find?_id_task_of_nodup (l : List SubtaskRow)
    (hn : (l.map (·.id)).Nodup) (s : SubtaskRow) (hs : s ∈ l)
    (tid : Nat) (htid : s.task_id = tid) :
    l.find? (fun x => x.id == s.id && x.task_id == tid) = some s := by
  induction l with
  | nil => cases hs
  | cons b t ih =>
    rcases List.mem_cons.mp hs with h | h
    · subst h
      rw [List.find?_cons]
      have hp : (s.id == s.id && s.task_id == tid) = true := by
        simp [htid]
      rw [hp]
    · have hbne : (b.id == s.id) = false := by
        rw [beq_eq_false_iff_ne]
        intro hc
        have hb : b.id ∈ t.map (·.id) := hc ▸ List.mem_map_of_mem (·.id) h
        exact (List.nodup_cons.mp hn).1 hb
      rw [List.find?_cons, hbne, Bool.false_and]
      exact ih (List.nodup_cons.mp hn).2 h

theorem nodup_filterMap_of_inj_on {α β : Type} (l : List α) (f : α → Option β)
    (hl : l.Nodup)
    (hinj : ∀ a ∈ l, ∀ a' ∈ l, ∀ b, f a = some b → f a' = some b → a = a') :
    (l.filterMap f).Nodup := by
  induction l with
  | nil => exact List.nodup_nil
  | cons a t ih =>
    rw [List.filterMap_cons]
    have htail : (t.filterMap f).Nodup :=
      ih (List.nodup_cons.mp hl).2 (fun x hx x' hx' b hb hb' =>
        hinj x (List.mem_cons_of_mem a hx) x' (List.mem_cons_of_mem a hx') b hb hb')
    rcases hfa : f a with _ | b
    · exact htail
    · rw [List.nodup_cons]
      refine ⟨?_, htail⟩
      intro hb
      rcases List.mem_filterMap.mp hb with ⟨a', ha', hfa'⟩
      have : a = a' := hinj a (List.mem_cons_self a t) a'
        (List.mem_cons_of_mem a ha') b hfa hfa'
      exact (List.nodup_cons.mp hl).1 (this ▸ ha')

theorem oldVisPairs_keys_nodup (db : DB) (task_id : Nat)
    (Hpos : ((db.subtasks.filter (fun s => s.task_id == task_id)).map
      (·.reihenfolge)).Nodup)
    (Hvisnd : (db.visibility.map
      (fun v => (v.subtask_id, v.klasse_id, v.student_id))).Nodup) :
    ((oldVisPairs db task_id).map Prod.fst).Nodup := by
  rw [oldVisPairs, List.map_filterMap]
  apply nodup_filterMap_of_inj_on _ _ (List.Nodup.of_map _ Hvisnd)
  intro v hv v' hv' k hk hk'
  rcases hfind : db.subtasks.find?
      (fun s => s.id == v.subtask_id && s.task_id == task_id) with _ | s
  · rw [hfind] at hk
    cases hk
  rcases hfind' : db.subtasks.find?
      (fun s => s.id == v'.subtask_id && s.task_id == task_id) with _ | s'
  · rw [hfind'] at hk'
    cases hk'
  rw [hfind] at hk
  rw [hfind'] at hk'
  simp only [Option.map_some', Option.some_inj] at hk hk'
  have hpred := List.find?_some hfind
  have hpred' := List.find?_some hfind'
  simp only [Bool.and_eq_true, beq_iff_eq] at hpred hpred'
  have hsmem := List.mem_of_find?_eq_some hfind
  have hsmem' := List.mem_of_find?_eq_some hfind'
  have hkk : (v.klasse_id, v.student_id, s.reihenfolge)
      = (v'.klasse_id, v'.student_id, s'.reihenfolge) := by
    rw [hk, hk']
  simp only [Prod.mk.injEq] at hkk
  have hsf : s ∈ db.subtasks.filter (fun x => x.task_id == task_id) :=
    List.mem_filter.mpr ⟨hsmem, by simp [hpred.2]⟩
  have hsf' : s' ∈ db.subtasks.filter (fun x => x.task_id == task_id) :=
    List.mem_filter.mpr ⟨hsmem', by simp [hpred'.2]⟩
  have hss : s = s' := List.inj_on_of_nodup_map Hpos hsf hsf' hkk.2.2
  have htriple : (v.subtask_id, v.klasse_id, v.student_id)
      = (v'.subtask_id, v'.klasse_id, v'.student_id) := by
    have hid : v.subtask_id = v'.subtask_id := by
      rw [← hpred.1, ← hpred'.1, hss]
    simp [hid, hkk.1, hkk.2.1]
  exact List.inj_on_of_nodup_map Hvisnd hv hv' htriple

theorem mem_newByPos (base : Nat) (lst : List String) (p n : Nat)
    (h : (p, n) ∈ newSubtaskIdsByPosition base lst) :
    ∃ j x, (j, x) ∈ (lst.enum.filter (fun q => !(pyStrip q.2 == ""))).enum ∧
      p = x.1 ∧ n = base + j := by
  rw [newSubtaskIdsByPosition] at h
  rcases List.mem_map.mp h with ⟨q, hq, heq⟩
  rw [Prod.mk.injEq] at heq
  exact ⟨q.1, q.2, hq, heq.1.symm, heq.2.symm⟩

theorem mem_newSubs (base tid : Nat) (lst : List String) (s' : SubtaskRow)
    (h : s' ∈ newSubtaskRows base tid lst) :
    ∃ j x, (j, x) ∈ (lst.enum.filter (fun q => !(pyStrip q.2 == ""))).enum ∧
      s' = ⟨base + j, tid, pyStrip x.2, x.1, none⟩ := by
  rw [newSubtaskRows] at h
  rcases List.mem_map.mp h with ⟨q, hq, heq⟩
  exact ⟨q.1, q.2, hq, heq.symm⟩

theorem enum_snd_unique {α : Type} (l : List α) (j : Nat) (x x' : α)
    (h : (j, x) ∈ l.enum) (h' : (j, x') ∈ l.enum) : x = x' := by
  rw [List.mk_mem_enum_iff_getElem?] at h h'
  rw [h] at h'
  exact Option.some_inj.mp h'

theorem update_subtasks_visibility_eq (db : DB) (task_id : Nat) (lst : List String) :
    (update_subtasks db task_id lst).visibility
      = db.visibility.filter (fun v =>
          !(((db.subtasks.filter (fun s => s.task_id == task_id)).map (·.id)).contains
            v.subtask_id))
        ++ (visibilityByPosition db task_id).filterMap (fun kv =>
            match lookupPos (newSubtaskIdsByPosition (nextSubtaskId db.subtasks) lst)
                kv.1.2.2 with
            | some nid => some (⟨nid, kv.1.1, kv.1.2.1, kv.2.1, kv.2.2⟩ : VisRow)
            | none => none) := rfl

theorem update_subtasks_subtasks_eq (db : DB) (task_id : Nat) (lst : List String) :
    (update_subtasks db task_id lst).subtasks
      = db.subtasks.filter (fun s => !(s.task_id == task_id))
        ++ newSubtaskRows (nextSubtaskId db.subtasks) task_id lst := rfl

theorem update_subtasks_material_eq (db : DB) (task_id : Nat) (lst : List String) :
    (update_subtasks db task_id lst).material_subtask
      = db.material_subtask.filter (fun ms =>
          !(((db.subtasks.filter (fun s => s.task_id == task_id)).map (·.id)).contains
            ms.subtask_id))
        ++ (materialPairsByPosition db task_id).filterMap (fun p =>
            match lookupPos (newSubtaskIdsByPosition (nextSubtaskId db.subtasks) lst)
                p.2 with
            | some nid => some (⟨p.1, nid⟩ : MaterialSubtaskRow)
            | none => none) := rfl

theorem update_subtasks_attempts_eq (db : DB) (task_id : Nat) (lst : List String) :
    (update_subtasks db task_id lst).quiz_attempts
      = db.quiz_attempts.map (fun a =>
          match a.subtask_id with
          | some sid =>
            if ((db.subtasks.filter (fun s => s.task_id == task_id)).map
                (·.id)).contains sid then
              { a with subtask_id := none }
            else a
          | none => a) := rfl

theorem update_subtasks_vis_preserved
    (db : DB) (task_id : Nat) (lst : List String)
    (Hid : (db.subtasks.map (·.id)).Nodup)
    (Hpos : ((db.subtasks.filter (fun s => s.task_id == task_id)).map
      (·.reihenfolge)).Nodup)
    (Hvisnd : (db.visibility.map
      (fun v => (v.subtask_id, v.klasse_id, v.student_id))).Nodup)
    (v : VisRow) (hv : v ∈ db.visibility) (s : SubtaskRow) (hs : s ∈ db.subtasks)
    (hsid : s.id = v.subtask_id) (htask : s.task_id = task_id) (nid : Nat)
    (hlook : lookupPos (newSubtaskIdsByPosition (nextSubtaskId db.subtasks) lst)
      s.reihenfolge = some nid) :
    (⟨nid, v.klasse_id, v.student_id, v.enabled, v.set_by_admin_id⟩ : VisRow)
      ∈ (update_subtasks db task_id lst).visibility := by
  rw [update_subtasks_visibility_eq]
  apply List.mem_append_right
  apply List.mem_filterMap.mpr
  refine ⟨((v.klasse_id, v.student_id, s.reihenfolge),
    (v.enabled, v.set_by_admin_id)), ?_, ?_⟩
  · rw [visibilityByPosition]
    apply mem_dictFold_of_mem
    · rw [oldVisPairs]
      apply List.mem_filterMap.mpr
      refine ⟨v, hv, ?_⟩
      have hfind : db.subtasks.find?
          (fun x => x.id == v.subtask_id && x.task_id == task_id) = some s := by
        rw [← hsid]
        exact find?_id_task_of_nodup db.subtasks Hid s hs task_id htask
      rw [hfind]
    · exact oldVisPairs_keys_nodup db task_id Hpos Hvisnd
  · show (match lookupPos (newSubtaskIdsByPosition (nextSubtaskId db.subtasks) lst)
        s.reihenfolge with
      | some nid' =>
        some (⟨nid', v.klasse_id, v.student_id, v.enabled, v.set_by_admin_id⟩ : VisRow)
      | none => none)
      = some (⟨nid, v.klasse_id, v.student_id, v.enabled, v.set_by_admin_id⟩ : VisRow)
    rw [hlook]

theorem update_subtasks_mat_preserved
    (db : DB) (task_id : Nat) (lst : List String)
    (Hid : (db.subtasks.map (·.id)).Nodup)
    (ms : MaterialSubtaskRow) (hms : ms ∈ db.material_subtask)
    (s : SubtaskRow) (hs : s ∈ db.subtasks)
    (hsid : s.id = ms.subtask_id) (htask : s.task_id = task_id) (nid : Nat)
    (hlook : lookupPos (newSubtaskIdsByPosition (nextSubtaskId db.subtasks) lst)
      s.reihenfolge = some nid) :
    (⟨ms.material_id, nid⟩ : MaterialSubtaskRow)
      ∈ (update_subtasks db task_id lst).material_subtask := by
  rw [update_subtasks_material_eq]
  apply List.mem_append_right
  apply List.mem_filterMap.mpr
  refine ⟨(ms.material_id, s.reihenfolge), ?_, ?_⟩
  · rw [materialPairsByPosition, List.mem_dedup]
    apply List.mem_filterMap.mpr
    refine ⟨ms, hms, ?_⟩
    have hfind : db.subtasks.find?
        (fun x => x.id == ms.subtask_id && x.task_id == task_id) = some s := by
      rw [← hsid]
      exact find?_id_task_of_nodup db.subtasks Hid s hs task_id htask
    rw [hfind]
  · show (match lookupPos (newSubtaskIdsByPosition (nextSubtaskId db.subtasks) lst)
        s.reihenfolge with
      | some nid' => some (⟨ms.material_id, nid'⟩ : MaterialSubtaskRow)
      | none => none)
      = some (⟨ms.material_id, nid⟩ : MaterialSubtaskRow)
    rw [hlook]

theorem update_subtasks_vis_origin
    (db : DB) (task_id : Nat) (lst : List String)
    (Hfk : ∀ v ∈ db.visibility, ∃ s ∈ db.subtasks, s.id = v.subtask_id)
    (w : VisRow) (hw : w ∈ (update_subtasks db task_id lst).visibility)
    (s' : SubtaskRow) (hs' : s' ∈ (update_subtasks db task_id lst).subtasks)
    (hsid' : s'.id = w.subtask_id) (htask' : s'.task_id = task_id) :
    ∃ v ∈ db.visibility, ∃ s ∈ db.subtasks, s.id = v.subtask_id ∧
      s.task_id = task_id ∧ s.reihenfolge = s'.reihenfolge ∧
      v.klasse_id = w.klasse_id ∧ v.student_id = w.student_id ∧
      v.enabled = w.enabled ∧ v.set_by_admin_id = w.set_by_admin_id := by
  rw [update_subtasks_visibility_eq] at hw
  rw [update_subtasks_subtasks_eq] at hs'
  have hs'new : s' ∈ newSubtaskRows (nextSubtaskId db.subtasks) task_id lst := by
    rcases List.mem_append.mp hs' with h | h
    · exfalso
      have hh := (List.mem_filter.mp h).2
      rw [htask'] at hh
      simp at hh
    · exact h
  obtain ⟨j', x', hjx', hs'eq⟩ := mem_newSubs _ _ _ _ hs'new
  have hs'id : s'.id = nextSubtaskId db.subtasks + j' := by rw [hs'eq]
  rcases List.mem_append.mp hw with hw2 | hwr
  · exfalso
    have hwmem : w ∈ db.visibility := (List.mem_filter.mp hw2).1
    obtain ⟨s0, hs0, hs0id⟩ := Hfk w hwmem
    have hlt := subtask_id_lt_next db.subtasks s0 hs0
    rw [hs0id, ← hsid', hs'id] at hlt
    omega
  rcases List.mem_filterMap.mp hwr with ⟨kv, hkv, hf⟩
  rcases mem_dictFold_src _ _ _
      (by rw [visibilityByPosition] at hkv; exact hkv) with hnil | hsrc
  · cases hnil
  rw [oldVisPairs] at hsrc
  rcases List.mem_filterMap.mp hsrc with ⟨v, hv, hfv⟩
  rcases hfind : db.subtasks.find?
      (fun x => x.id == v.subtask_id && x.task_id == task_id) with _ | s
  · rw [hfind] at hfv
    cases hfv
  rw [hfind] at hfv
  have hkv_eq : kv = ((v.klasse_id, v.student_id, s.reihenfolge),
      (v.enabled, v.set_by_admin_id)) := (Option.some_inj.mp hfv).symm
  have hpred := List.find?_some hfind
  simp only [Bool.and_eq_true, beq_iff_eq] at hpred
  have hsmem := List.mem_of_find?_eq_some hfind
  rw [hkv_eq] at hf
  dsimp only at hf
  rcases hq : (newSubtaskIdsByPosition (nextSubtaskId db.subtasks) lst).find?
      (fun q => q.1 == s.reihenfolge) with _ | q0
  · rw [lookupPos, hq] at hf
    cases hf
  rw [lookupPos, hq] at hf
  dsimp only [Option.map_some'] at hf
  have hw_eq : w = ⟨q0.2, v.klasse_id, v.student_id, v.enabled, v.set_by_admin_id⟩ :=
    (Option.some_inj.mp hf).symm
  have hq0pred : q0.1 = s.reihenfolge := by
    have := List.find?_some hq
    simpa using this
  have hq0mem := List.mem_of_find?_eq_some hq
  obtain ⟨j, x, hjx, hp, hn⟩ := mem_newByPos _ _ q0.1 q0.2 hq0mem
  have hjj : j = j' := by
    have hsid2 : s'.id = nextSubtaskId db.subtasks + j := by
      rw [hsid', hw_eq, hn]
    omega
  have hxx : x = x' := enum_snd_unique _ j x x' hjx (hjj ▸ hjx')
  have hs'pos : s'.reihenfolge = x.1 := by
    rw [hs'eq, hxx]
  refine ⟨v, hv, s, hsmem, hpred.1, hpred.2, ?_, ?_, ?_, ?_, ?_⟩
  · rw [hs'pos, ← hp, hq0pred]
  · rw [hw_eq]
  · rw [hw_eq]
  · rw [hw_eq]
  · rw [hw_eq]

theorem update_subtasks_mat_origin
    (db : DB) (task_id : Nat) (lst : List String)
    (HfkM : ∀ ms ∈ db.material_subtask, ∃ s ∈ db.subtasks, s.id = ms.subtask_id)
    (w : MaterialSubtaskRow) (hw : w ∈ (update_subtasks db task_id lst).material_subtask)
    (s' : SubtaskRow) (hs' : s' ∈ (update_subtasks db task_id lst).subtasks)
    (hsid' : s'.id = w.subtask_id) (htask' : s'.task_id = task_id) :
    ∃ ms ∈ db.material_subtask, ∃ s ∈ db.subtasks, s.id = ms.subtask_id ∧
      s.task_id = task_id ∧ s.reihenfolge = s'.reihenfolge ∧
      ms.material_id = w.material_id := by
  rw [update_subtasks_material_eq] at hw
  rw [update_subtasks_subtasks_eq] at hs'
  have hs'new : s' ∈ newSubtaskRows (nextSubtaskId db.subtasks) task_id lst := by
    rcases List.mem_append.mp hs' with h | h
    · exfalso
      have hh := (List.mem_filter.mp h).2
      rw [htask'] at hh
      simp at hh
    · exact h
  obtain ⟨j', x', hjx', hs'eq⟩ := mem_newSubs _ _ _ _ hs'new
  have hs'id : s'.id = nextSubtaskId db.subtasks + j' := by rw [hs'eq]
  rcases List.mem_append.mp hw with hw2 | hwr
  · exfalso
    have hwmem : w ∈ db.material_subtask := (List.mem_filter.mp hw2).1
    obtain ⟨s0, hs0, hs0id⟩ := HfkM w hwmem
    have hlt := subtask_id_lt_next db.subtasks s0 hs0
    rw [hs0id, ← hsid', hs'id] at hlt
    omega
  rcases List.mem_filterMap.mp hwr with ⟨p, hp0, hf⟩
  rw [materialPairsByPosition, List.mem_dedup] at hp0
  rcases List.mem_filterMap.mp hp0 with ⟨ms, hms, hfms⟩
  rcases hfind : db.subtasks.find?
      (fun x => x.id == ms.subtask_id && x.task_id == task_id) with _ | s
  · rw [hfind] at hfms
    cases hfms
  rw [hfind] at hfms
  have hp_eq : p = (ms.material_id, s.reihenfolge) := (Option.some_inj.mp hfms).symm
  have hpred := List.find?_some hfind
  simp only [Bool.and_eq_true, beq_iff_eq] at hpred
  have hsmem := List.mem_of_find?_eq_some hfind
  rw [hp_eq] at hf
  dsimp only at hf
  rcases hq : (newSubtaskIdsByPosition (nextSubtaskId db.subtasks) lst).find?
      (fun q => q.1 == s.reihenfolge) with _ | q0
  · rw [lookupPos, hq] at hf
    cases hf
  rw [lookupPos, hq] at hf
  dsimp only [Option.map_some'] at hf
  have hw_eq : w = ⟨ms.material_id, q0.2⟩ := (Option.some_inj.mp hf).symm
  have hq0pred : q0.1 = s.reihenfolge := by
    have := List.find?_some hq
    simpa using this
  have hq0mem := List.mem_of_find?_eq_some hq
  obtain ⟨j, x, hjx, hpp, hn⟩ := mem_newByPos _ _ q0.1 q0.2 hq0mem
  have hjj : j = j' := by
    have hsid2 : s'.id = nextSubtaskId db.subtasks + j := by
      rw [hsid', hw_eq, hn]
    omega
  have hxx : x = x' := enum_snd_unique _ j x x' hjx (hjj ▸ hjx')
  have hs'pos : s'.reihenfolge = x.1 := by
    rw [hs'eq, hxx]
  refine ⟨ms, hms, s, hsmem, hpred.1, hpred.2, ?_, ?_⟩
  · rw [hs'pos, ← hpp, hq0pred]
  · rw [hw_eq]

theorem update_subtasks_attempts_spec (db : DB) (task_id : Nat) (lst : List String) :
    ((update_subtasks db task_id lst).quiz_attempts.length = db.quiz_attempts.length) ∧
    (∀ a ∈ db.quiz_attempts, ∀ sid, a.subtask_id = some sid →
      sid ∈ (db.subtasks.filter (fun s => s.task_id == task_id)).map (·.id) →
      ({ a with subtask_id := none } : QuizAttemptRow)
        ∈ (update_subtasks db task_id lst).quiz_attempts) ∧
    (∀ a ∈ db.quiz_attempts, (∀ sid, a.subtask_id = some sid →
      sid ∉ (db.subtasks.filter (fun s => s.task_id == task_id)).map (·.id)) →
      a ∈ (update_subtasks db task_id lst).quiz_attempts) := by
  rw [update_subtasks_attempts_eq]
  refine ⟨List.length_map _ _, ?_, ?_⟩
  · intro a ha sid hsid hmem
    refine List.mem_map.mpr ⟨a, ha, ?_⟩
    rw [hsid]
    have hcont : ((db.subtasks.filter (fun s => s.task_id == task_id)).map
        (·.id)).contains sid = true :=
      List.elem_eq_true_of_mem hmem
    simp only [hcont, if_true]
  · intro a ha hno
    refine List.mem_map.mpr ⟨a, ha, ?_⟩
    rcases hsid : a.subtask_id with _ | sid
    · rfl
    have hcont : ((db.subtasks.filter (fun s => s.task_id == task_id)).map
        (·.id)).contains sid = false := by
      rw [Bool.eq_false_iff]
      intro hc
      exact hno sid hsid (List.mem_of_elem_eq_true hc)
    simp only [hsid, hcont]
    simp

/-- Claim C4, amended: `update_subtasks` (the replace-all rewrite of a
task's subtask list) preserves `subtask_visibility` rows and
`material_subtask` assignments for positions (`reihenfolge`) that exist
both before and after the rewrite, and discards them for removed positions
(every surviving row for the task stems from an old row at the same
position); quiz-attempt rows are preserved (same count) but their
references to the task's old subtasks are set to NULL — orphaned to topic
level, not remapped to the new subtasks.  Hypotheses: subtask ids are
unique, the task's subtasks occupy distinct positions, at most one
visibility row exists per (subtask, class, student), and visibility and
material rows reference existing subtasks (the schema's PK/uniqueness/FK
constraints). -/
theorem update_subtasks_position_roundtrip
    (db : DB) (task_id : Nat) (lst : List String)
    (Hid : (db.subtasks.map (·.id)).Nodup)
    (Hpos : ((db.subtasks.filter (fun s => s.task_id == task_id)).map
      (·.reihenfolge)).Nodup)
    (Hvisnd : (db.visibility.map
      (fun v => (v.subtask_id, v.klasse_id, v.student_id))).Nodup)
    (Hfk : ∀ v ∈ db.visibility, ∃ s ∈ db.subtasks, s.id = v.subtask_id)
    (HfkM : ∀ ms ∈ db.material_subtask, ∃ s ∈ db.subtasks, s.id = ms.subtask_id) :
    (∀ v ∈ db.visibility, ∀ s ∈ db.subtasks, s.id = v.subtask_id →
      s.task_id = task_id → ∀ nid,
      lookupPos (newSubtaskIdsByPosition (nextSubtaskId db.subtasks) lst)
          s.reihenfolge = some nid →
      (⟨nid, v.klasse_id, v.student_id, v.enabled, v.set_by_admin_id⟩ : VisRow)
        ∈ (update_subtasks db task_id lst).visibility) ∧
    (∀ w ∈ (update_subtasks db task_id lst).visibility,
      ∀ s' ∈ (update_subtasks db task_id lst).subtasks, s'.id = w.subtask_id →
      s'.task_id = task_id →
      ∃ v ∈ db.visibility, ∃ s ∈ db.subtasks, s.id = v.subtask_id ∧
        s.task_id = task_id ∧ s.reihenfolge = s'.reihenfolge ∧
        v.klasse_id = w.klasse_id ∧ v.student_id = w.student_id ∧
        v.enabled = w.enabled ∧ v.set_by_admin_id = w.set_by_admin_id) ∧
    (∀ ms ∈ db.material_subtask, ∀ s ∈ db.subtasks, s.id = ms.subtask_id →
      s.task_id = task_id → ∀ nid,
      lookupPos (newSubtaskIdsByPosition (nextSubtaskId db.subtasks) lst)
          s.reihenfolge = some nid →
      (⟨ms.material_id, nid⟩ : MaterialSubtaskRow)
        ∈ (update_subtasks db task_id lst).material_subtask) ∧
    (∀ w ∈ (update_subtasks db task_id lst).material_subtask,
      ∀ s' ∈ (update_subtasks db task_id lst).subtasks, s'.id = w.subtask_id →
      s'.task_id = task_id →
      ∃ ms ∈ db.material_subtask, ∃ s ∈ db.subtasks, s.id = ms.subtask_id ∧
        s.task_id = task_id ∧ s.reihenfolge = s'.reihenfolge ∧
        ms.material_id = w.material_id) ∧
    ((update_subtasks db task_id lst).quiz_attempts.length
        = db.quiz_attempts.length ∧
     (∀ a ∈ db.quiz_attempts, ∀ sid, a.subtask_id = some sid →
        sid ∈ (db.subtasks.filter (fun s => s.task_id == task_id)).map (·.id) →
        ({ a with subtask_id := none } : QuizAttemptRow)
          ∈ (update_subtasks db task_id lst).quiz_attempts) ∧
     (∀ a ∈ db.quiz_attempts, (∀ sid, a.subtask_id = some sid →
        sid ∉ (db.subtasks.filter (fun s => s.task_id == task_id)).map (·.id)) →
        a ∈ (update_subtasks db task_id lst).quiz_attempts)) := by
  refine ⟨?_, ?_, ?_, ?_, update_subtasks_attempts_spec db task_id lst⟩
  · intro v hv s hs h1 h2 nid h3
    exact update_subtasks_vis_preserved db task_id lst Hid Hpos Hvisnd
      v hv s hs h1 h2 nid h3
  · intro w hw s' hs' h1 h2
    exact update_subtasks_vis_origin db task_id lst Hfk w hw s' hs' h1 h2
  · intro ms hms s hs h1 h2 nid h3
    exact update_subtasks_mat_preserved db task_id lst Hid ms hms s hs h1 h2 nid h3
  · intro w hw s' hs' h1 h2
    exact update_subtasks_mat_origin db task_id lst HfkM w hw s' hs' h1 h2

/-- Witness for the amended C4 in the concrete store `c4wdb`, rewriting
task 1's subtask list to `["y"]`. -/
theorem update_subtasks_position_roundtrip_witness :
    (∀ v ∈ c4wdb.visibility, ∀ s ∈ c4wdb.subtasks, s.id = v.subtask_id →
      s.task_id = 1 → ∀ nid,
      lookupPos (newSubtaskIdsByPosition (nextSubtaskId c4wdb.subtasks) ["y"])
          s.reihenfolge = some nid →
      (⟨nid, v.klasse_id, v.student_id, v.enabled, v.set_by_admin_id⟩ : VisRow)
        ∈ (update_subtasks c4wdb 1 ["y"]).visibility) ∧
    (∀ w ∈ (update_subtasks c4wdb 1 ["y"]).visibility,
      ∀ s' ∈ (update_subtasks c4wdb 1 ["y"]).subtasks, s'.id = w.subtask_id →
      s'.task_id = 1 →
      ∃ v ∈ c4wdb.visibility, ∃ s ∈ c4wdb.subtasks, s.id = v.subtask_id ∧
        s.task_id = 1 ∧ s.reihenfolge = s'.reihenfolge ∧
        v.klasse_id = w.klasse_id ∧ v.student_id = w.student_id ∧
        v.enabled = w.enabled ∧ v.set_by_admin_id = w.set_by_admin_id) ∧
    (∀ ms ∈ c4wdb.material_subtask, ∀ s ∈ c4wdb.subtasks, s.id = ms.subtask_id →
      s.task_id = 1 → ∀ nid,
      lookupPos (newSubtaskIdsByPosition (nextSubtaskId c4wdb.subtasks) ["y"])
          s.reihenfolge = some nid →
      (⟨ms.material_id, nid⟩ : MaterialSubtaskRow)
        ∈ (update_subtasks c4wdb 1 ["y"]).material_subtask) ∧
    (∀ w ∈ (update_subtasks c4wdb 1 ["y"]).material_subtask,
      ∀ s' ∈ (update_subtasks c4wdb 1 ["y"]).subtasks, s'.id = w.subtask_id →
      s'.task_id = 1 →
      ∃ ms ∈ c4wdb.material_subtask, ∃ s ∈ c4wdb.subtasks, s.id = ms.subtask_id ∧
        s.task_id = 1 ∧ s.reihenfolge = s'.reihenfolge ∧
        ms.material_id = w.material_id) ∧
    ((update_subtasks c4wdb 1 ["y"]).quiz_attempts.length
        = c4wdb.quiz_attempts.length ∧
     (∀ a ∈ c4wdb.quiz_attempts, ∀ sid, a.subtask_id = some sid →
        sid ∈ (c4wdb.subtasks.filter (fun s => s.task_id == 1)).map (·.id) →
        ({ a with subtask_id := none } : QuizAttemptRow)
          ∈ (update_subtasks c4wdb 1 ["y"]).quiz_attempts) ∧
     (∀ a ∈ c4wdb.quiz_attempts, (∀ sid, a.subtask_id = some sid →
        sid ∉ (c4wdb.subtasks.filter (fun s => s.task_id == 1)).map (·.id)) →
        a ∈ (update_subtasks c4wdb 1 ["y"]).quiz_attempts)) :=
  update_subtasks_position_roundtrip c4wdb 1 ["y"] (by decide) (by decide)
    (by decide) (by decide) (by decide)

end Lernmanager
